import Mathlib

/-!
# markdeploy: the `logstash` connection manager

A shallow embedding of `logstash/logstash.go` (`New`, `SetTimeouts`, `Connect`,
`Writeln`).  The Go standard library calls the package makes (`net`, `time`,
`errors`, `fmt`, the built-in `append`) are modelled as explicit state passing
over a `World`: a table of sockets, a heap of byte arrays and the ordered log
of every library call.  What the network and the clock answer is left to an
arbitrary `Env`, so every statement holds for every transport behaviour.
-/

namespace Markdeploy

/-! ## Go values -/

/-- One byte of a `[]byte`; only copied and compared, never computed with. -/
abbrev Byte := Nat

/-- A non-nil Go `error` value.  `netTimeout` is `some t` when the dynamic type
implements `net.Error` and its `Timeout()` method answers `t`, and `none` when
the type assertion `err.(net.Error)` fails. -/
structure GoError where
  msg : String
  netTimeout : Option Bool
deriving DecidableEq, Repr

/-- Go `errors.New(text)`: a plain error, not a `net.Error`. -/
def errorsNew (text : String) : GoError :=
  { msg := text, netTimeout := none }

/-- The test `neterr, ok := err.(net.Error); ok && neterr.Timeout()`. -/
def isNetTimeout (e : GoError) : Bool :=
  match e.netTimeout with
  | some t => t
  | none => false

/-- The error a `net` call answers on a socket that is already closed
(`*net.OpError`, a `net.Error` whose `Timeout()` is false). -/
def errClosed : GoError :=
  { msg := "use of closed network connection", netTimeout := some false }

/-- A run-time panic of the Go program. -/
inductive Fault where
  | nilDereference
deriving DecidableEq, Repr

/-! ## 64-bit integers and time -/

/-- Two's-complement wrap-around of a mathematical integer to `int64`. -/
def wrapInt64 (x : Int) : Int :=
  (x + 2 ^ 63) % 2 ^ 64 - 2 ^ 63

/-- Largest `int64`. -/
def maxInt64 : Int := 2 ^ 63 - 1

/-- Smallest `int64`. -/
def minInt64 : Int := -(2 ^ 63)

/-- Go `time.Millisecond`, a `time.Duration` (an `int64` count of nanoseconds). -/
def Millisecond : Int := 1000000

/-- Go `time.Second`. -/
def Second : Int := 1000000000

/-- Go `time.Duration(n)` for an `int` n: conversion to `int64`. -/
def toDuration (n : Int) : Int := wrapInt64 n

/-- Go `a * b` on two `time.Duration` values: `int64` multiplication, which wraps. -/
def durationMul (a b : Int) : Int := wrapInt64 (a * b)

/-- Go `t.Add(d)`.  An instant is its count of nanoseconds since the epoch; the
library adds exactly for every instant and duration it can represent. -/
def timeAdd (t d : Int) : Int := t + d

/-! ## Slices -/

/-- The heap of byte arrays that slices point into. -/
abbrev Heap := List (List Byte)

/-- A Go slice header: backing array, offset of element 0 in it, length, capacity. -/
structure Slice where
  arr : Nat
  off : Nat
  len : Nat
  cap : Nat
deriving DecidableEq, Repr

/-- The backing array a slice points to (empty for a nil slice). -/
def Heap.array (h : Heap) (a : Nat) : List Byte := h.getD a []

/-- The elements `s[0], ..., s[len-1]` of a slice. -/
def sliceBytes (h : Heap) (s : Slice) : List Byte :=
  ((h.array s.arr).drop s.off).take s.len

/-- What every Go slice satisfies: `len <= cap` and the capacity lies inside
the backing array. -/
def Slice.WF (h : Heap) (s : Slice) : Prop :=
  s.len ≤ s.cap ∧ s.off + s.cap ≤ (h.array s.arr).length

instance (h : Heap) (s : Slice) : Decidable (s.WF h) := by
  unfold Slice.WF; infer_instance

/-- Go built-in `append(s, b)` for one byte.  With spare capacity the byte is
stored in place, in the backing array at index `len`, and the result shares
that array.  Without, a new array is allocated (its capacity chosen by the
runtime, `grow`, and at least `len + 1`), the elements are copied and the byte
is stored after them. -/
def goAppend (grow : Nat → Nat) (h : Heap) (s : Slice) (b : Byte) : Heap × Slice :=
  if s.len < s.cap then
    (h.set s.arr ((h.array s.arr).set (s.off + s.len) b), { s with len := s.len + 1 })
  else
    let newcap := max (s.len + 1) (grow (s.len + 1))
    (h ++ [sliceBytes h s ++ [b] ++ List.replicate (newcap - (s.len + 1)) 0],
      { arr := h.length, off := 0, len := s.len + 1, cap := newcap })

/-! ## The network -/

/-- Go `net.TCPAddr`. -/
structure TCPAddr where
  IP : List Nat
  Port : Int
  Zone : String
deriving DecidableEq, Repr

/-- The socket behind a `*net.TCPConn`. -/
structure ConnState where
  isOpen : Bool
  linger : Int
  noDelay : Bool
  keepAlive : Bool
  keepAlivePeriod : Int
  readDeadline : Option Int
  writeDeadline : Option Int
deriving DecidableEq, Repr

/-- A socket as `net.DialTCP` hands it out: open, default options, no deadline. -/
def freshConn : ConnState :=
  { isOpen := true, linger := -1, noDelay := true, keepAlive := false,
    keepAlivePeriod := 0, readDeadline := none, writeDeadline := none }

/-- One call into the standard library, as logged. -/
inductive Op where
  | resolve (network service : String)
  | dial (network : String) (raddr : TCPAddr)
  | setLinger (c : Nat) (sec : Int)
  | setNoDelay (c : Nat) (v : Bool)
  | setKeepAlive (c : Nat) (v : Bool)
  | setKeepAlivePeriod (c : Nat) (d : Int)
  | setDeadline (c : Nat) (t : Int)
  | setWriteDeadline (c : Nat) (t : Int)
  | setReadDeadline (c : Nat) (t : Int)
  | write (c : Nat) (buf : List Byte)
  | close (c : Nat)
  | now
deriving DecidableEq, Repr

/-- Everything outside the manager: sockets (a `*net.TCPConn` is an index into
`conns`), the log of library calls, and the byte heap. -/
structure World where
  conns : List ConnState
  trace : List Op
  heap : Heap
deriving DecidableEq, Repr

/-- What `net.DialTCP` can answer: a connection, an error, or neither. -/
inductive DialOutcome where
  | connected
  | failed (err : GoError)
  | nothing
deriving DecidableEq, Repr

/-- The behaviour of the transport, the clock and the allocator.  Every answer
may depend on the whole history, which the `World` carries. -/
structure Env where
  resolve : World → String → String → Except GoError TCPAddr
  dial : World → String → TCPAddr → DialOutcome
  write : World → Nat → List Byte → Nat × Option GoError
  clock : World → Int
  growCap : Nat → Nat

/-- Append a call to the log. -/
def World.log (w : World) (op : Op) : World :=
  { w with trace := w.trace ++ [op] }

/-- Is `c` an open socket? -/
def World.isOpen (w : World) (c : Nat) : Bool :=
  match w.conns[c]? with
  | some s => s.isOpen
  | none => false

/-- Change the state of socket `c`; a closed socket refuses every change (the
call answers an error, which the package ignores). -/
def World.update (w : World) (c : Nat) (f : ConnState → ConnState) : World :=
  match w.conns[c]? with
  | some s => if s.isOpen then { w with conns := w.conns.set c (f s) } else w
  | none => w

/-- Go `net.ResolveTCPAddr(network, service)`. -/
def ResolveTCPAddr (env : Env) (w : World) (network service : String) :
    Except GoError TCPAddr × World :=
  (env.resolve w network service, w.log (.resolve network service))

/-- Go `net.DialTCP(network, nil, raddr)`: the connection (nil or a new socket),
the error, the world afterwards. -/
def DialTCP (env : Env) (w : World) (network : String) (raddr : TCPAddr) :
    Option Nat × Option GoError × World :=
  let w1 := w.log (.dial network raddr)
  match env.dial w network raddr with
  | .connected => (some w.conns.length, none, { w1 with conns := w1.conns ++ [freshConn] })
  | .failed e => (none, some e, w1)
  | .nothing => (none, none, w1)

/-- Go `c.SetLinger(sec)`. -/
def SetLinger (w : World) (c : Nat) (sec : Int) : World :=
  (w.log (.setLinger c sec)).update c (fun s => { s with linger := sec })

/-- Go `c.SetNoDelay(v)`. -/
def SetNoDelay (w : World) (c : Nat) (v : Bool) : World :=
  (w.log (.setNoDelay c v)).update c (fun s => { s with noDelay := v })

/-- Go `c.SetKeepAlive(v)`. -/
def SetKeepAlive (w : World) (c : Nat) (v : Bool) : World :=
  (w.log (.setKeepAlive c v)).update c (fun s => { s with keepAlive := v })

/-- Go `c.SetKeepAlivePeriod(d)`. -/
def SetKeepAlivePeriod (w : World) (c : Nat) (d : Int) : World :=
  (w.log (.setKeepAlivePeriod c d)).update c (fun s => { s with keepAlivePeriod := d })

/-- Go `c.SetDeadline(t)`: the read and the write deadline together. -/
def SetDeadline (w : World) (c : Nat) (t : Int) : World :=
  (w.log (.setDeadline c t)).update c
    (fun s => { s with readDeadline := some t, writeDeadline := some t })

/-- Go `c.SetWriteDeadline(t)`. -/
def SetWriteDeadline (w : World) (c : Nat) (t : Int) : World :=
  (w.log (.setWriteDeadline c t)).update c (fun s => { s with writeDeadline := some t })

/-- Go `c.SetReadDeadline(t)`. -/
def SetReadDeadline (w : World) (c : Nat) (t : Int) : World :=
  (w.log (.setReadDeadline c t)).update c (fun s => { s with readDeadline := some t })

/-- Go `c.Write(buf)`: on an open socket the transport decides; on a closed
one the call fails. -/
def connWrite (env : Env) (w : World) (c : Nat) (buf : List Byte) :
    Nat × Option GoError × World :=
  let w1 := w.log (.write c buf)
  if w.isOpen c then ((env.write w c buf).1, (env.write w c buf).2, w1)
  else (0, some errClosed, w1)

/-- Go `c.Close()`. -/
def connClose (w : World) (c : Nat) : World :=
  (w.log (.close c)).update c (fun s => { s with isOpen := false })

/-- Go `time.Now()`. -/
def timeNow (env : Env) (w : World) : Int × World :=
  (env.clock w, w.log .now)

/-- Evaluating `p.M(...)` on a `*net.TCPConn` p: a nil p panics. -/
def deref (p : Option Nat) : Except Fault Nat :=
  match p with
  | some c => .ok c
  | none => .error .nilDereference

/-! ## package logstash -/

/-- Go `type Logstash struct`. -/
structure Logstash where
  Hostname : String
  Port : Int
  Connection : Option Nat
  Timeout : Int
deriving DecidableEq, Repr

/-- Go `func New(hostname string, port int, timeout int) *Logstash`. -/
def New (hostname : String) (port : Int) (timeout : Int) : Logstash :=
  { Hostname := hostname, Port := port, Connection := none, Timeout := timeout }

/-- Go `func (l *Logstash) SetTimeouts()`. -/
def SetTimeouts (env : Env) (l : Logstash) (w : World) : Except Fault World :=
  let (now, w) := timeNow env w
  let deadline := timeAdd now (durationMul (toDuration l.Timeout) Millisecond)
  match deref l.Connection with
  | .error f => .error f
  | .ok c =>
    let w := SetDeadline w c deadline
    match deref l.Connection with
    | .error f => .error f
    | .ok c =>
      let w := SetWriteDeadline w c deadline
      match deref l.Connection with
      | .error f => .error f
      | .ok c =>
        let w := SetReadDeadline w c deadline
        .ok w

/-- Go `fmt.Sprintf("%s:%d", host, port)`. -/
def sprintfHostPort (host : String) (port : Int) : String :=
  host ++ ":" ++ toString port

/-- Go `func (l *Logstash) Connect() (*net.TCPConn, error)`.  The result is the
returned pair, the manager afterwards and the world afterwards. -/
def Connect (env : Env) (l : Logstash) (w : World) :
    Except Fault ((Option Nat × Option GoError) × Logstash × World) :=
  let connection : Option Nat := none
  let service := sprintfHostPort l.Hostname l.Port
  match ResolveTCPAddr env w "tcp" service with
  | (.error err, w) => .ok ((connection, some err), l, w)
  | (.ok addr, w) =>
    match DialTCP env w "tcp" addr with
    | (connection, some err, w) => .ok ((connection, some err), l, w)
    | (connection, none, w) =>
      match connection with
      | some _ =>
        let l := { l with Connection := connection }
        match deref l.Connection with
        | .error f => .error f
        | .ok c =>
          let w := SetLinger w c 0
          match deref l.Connection with
          | .error f => .error f
          | .ok c =>
            let w := SetNoDelay w c true
            match deref l.Connection with
            | .error f => .error f
            | .ok c =>
              let w := SetKeepAlive w c true
              match deref l.Connection with
              | .error f => .error f
              | .ok c =>
                let w := SetKeepAlivePeriod w c (durationMul (toDuration 5) Second)
                match SetTimeouts env l w with
                | .error f => .error f
                | .ok w => .ok ((connection, none), l, w)
      | none => .ok ((connection, none), l, w)

/-- Go `func (l *Logstash) Writeln(message []byte) (error)`.  The result is the
returned error, the manager afterwards and the world afterwards. -/
def Writeln (env : Env) (l : Logstash) (w : World) (message : Slice) :
    Except Fault (Option GoError × Logstash × World) :=
  let err : Option GoError := some (errorsNew "tcp connection is nil")
  let (heap, message) := goAppend env.growCap w.heap message 10
  let w : World := { w with heap := heap }
  match l.Connection with
  | some _ =>
    match deref l.Connection with
    | .error f => .error f
    | .ok c =>
      let (_, err, w) := connWrite env w c (sliceBytes w.heap message)
      match err with
      | some e =>
        if isNetTimeout e then
          match deref l.Connection with
          | .error f => .error f
          | .ok c =>
            let w := connClose w c
            let l := { l with Connection := none }
            match err with
            | some _ => .ok (err, l, w)
            | none => .ok (err, l, w)
        else
          match deref l.Connection with
          | .error f => .error f
          | .ok c =>
            let w := connClose w c
            let l := { l with Connection := none }
            .ok (err, l, w)
      | none =>
        match SetTimeouts env l w with
        | .error f => .error f
        | .ok w => .ok (none, l, w)
  | none => .ok (err, l, w)

/-! ## Names used in the statements -/

/-- The world `Writeln` hands to `Write`: the caller's world after
`message = append(message, 0x0A)`. -/
def afterAppend (env : Env) (w : World) (message : Slice) : World :=
  { w with heap := (goAppend env.growCap w.heap message 10).1 }

/-- The buffer `Writeln` passes to `Write`: the elements of the appended slice. -/
def frame (env : Env) (w : World) (message : Slice) : List Byte :=
  sliceBytes (goAppend env.growCap w.heap message 10).1 (goAppend env.growCap w.heap message 10).2

/-- The error `Writeln` starts from: `errors.New("tcp connection is nil")`. -/
def errNotConnected : GoError := errorsNew "tcp connection is nil"

/-- Is the logged call a `Write`? -/
def Op.isWrite : Op → Bool
  | .write _ _ => true
  | _ => false

/-- The handle a logged call was made on: the method calls on a `*net.TCPConn`
name one, the other calls none. -/
def Op.onHandle : Op → Option Nat
  | .setLinger c _ => some c
  | .setNoDelay c _ => some c
  | .setKeepAlive c _ => some c
  | .setKeepAlivePeriod c _ => some c
  | .setDeadline c _ => some c
  | .setWriteDeadline c _ => some c
  | .setReadDeadline c _ => some c
  | .write c _ => some c
  | .close c => some c
  | .resolve _ _ => none
  | .dial _ _ => none
  | .now => none

/-- The world right after a successful dial from `w`: the two calls logged and
the new socket added. -/
def dialed (w : World) (l : Logstash) (addr : TCPAddr) : World :=
  { conns := w.conns ++ [freshConn],
    trace := w.trace ++ [.resolve "tcp" (sprintfHostPort l.Hostname l.Port)] ++ [.dial "tcp" addr],
    heap := w.heap }

/-- The world after lines 53-56 of `Connect` on the new socket `c`. -/
def optionsSet (w : World) (c : Nat) : World :=
  SetKeepAlivePeriod (SetKeepAlive (SetNoDelay (SetLinger w c 0) c true) c true) c
    (durationMul (toDuration 5) Second)

/-- The deadline `SetTimeouts` computes from the clock reading `now`. -/
def deadlineAt (l : Logstash) (now : Int) : Int :=
  timeAdd now (durationMul (toDuration l.Timeout) Millisecond)

/-- The clock reading `SetTimeouts` takes inside a successful `Writeln`: the
world then has the write logged. -/
def nowAfterWrite (env : Env) (w : World) (m : Slice) (c : Nat) : Int :=
  env.clock ((afterAppend env w m).log (.write c (frame env w m)))

/-! ## Sample transports and states -/

/-- A transport on which everything succeeds; the clock reads 1000 plus the
number of calls logged so far. -/
def envAllOk : Env :=
  { resolve := fun _ _ _ => .ok { IP := [127, 0, 0, 1], Port := 9000, Zone := "" }
    dial := fun _ _ _ => .connected
    write := fun _ _ buf => (buf.length, none)
    clock := fun w => 1000 + w.trace.length
    growCap := fun n => 2 * n }

/-- A write deadline that expired: a `net.Error` whose `Timeout()` is true. -/
def errTimeout : GoError := { msg := "i/o timeout", netTimeout := some true }

/-- A transport on which every write times out. -/
def envWriteTimeout : Env :=
  { envAllOk with write := fun _ _ _ => (0, some errTimeout) }

/-- A transport that cannot resolve any name. -/
def envNoHost : Env :=
  { envAllOk with resolve := fun _ _ _ => .error { msg := "no such host", netTimeout := some false } }

/-- A transport on which every dial is refused. -/
def envRefused : Env :=
  { envAllOk with dial := fun _ _ _ => .failed { msg := "connection refused", netTimeout := some false } }

/-- A world with no socket and one three-byte array holding `h`, `i` and a spare byte. -/
def worldNoConn : World :=
  { conns := [], trace := [], heap := [[104, 105, 0]] }

/-- A world with one open socket and the same array. -/
def worldOneConn : World :=
  { conns := [freshConn], trace := [], heap := [[104, 105, 0]] }

/-- The slice `hi` with one byte of spare capacity. -/
def sliceSpare : Slice := { arr := 0, off := 0, len := 2, cap := 3 }

/-- The slice `hi` with no spare capacity. -/
def sliceTight : Slice := { arr := 0, off := 0, len := 2, cap := 2 }

/-- A manager holding socket 0, timeout 5000 ms. -/
def heldManager : Logstash :=
  { Hostname := "127.0.0.1", Port := 9000, Connection := some 0, Timeout := 5000 }

/-- The clock reading `SetTimeouts` takes inside a successful `Connect`: the new
socket has its options set by then. -/
def nowAtConnect (env : Env) (l : Logstash) (w : World) (addr : TCPAddr) : Int :=
  env.clock (optionsSet (dialed w l addr) w.conns.length)

/-- The world a successful `Connect` leaves. -/
def connectedWorld (env : Env) (l : Logstash) (w : World) (addr : TCPAddr) : World :=
  { conns := w.conns ++ [
      { isOpen := true, linger := 0, noDelay := true, keepAlive := true,
        keepAlivePeriod := 5000000000,
        readDeadline := some (deadlineAt l (nowAtConnect env l w addr)),
        writeDeadline := some (deadlineAt l (nowAtConnect env l w addr)) }],
    trace := w.trace ++ [.resolve "tcp" (sprintfHostPort l.Hostname l.Port),
      .dial "tcp" addr, .setLinger w.conns.length 0, .setNoDelay w.conns.length true,
      .setKeepAlive w.conns.length true, .setKeepAlivePeriod w.conns.length 5000000000,
      .now, .setDeadline w.conns.length (deadlineAt l (nowAtConnect env l w addr)),
      .setWriteDeadline w.conns.length (deadlineAt l (nowAtConnect env l w addr)),
      .setReadDeadline w.conns.length (deadlineAt l (nowAtConnect env l w addr))],
    heap := w.heap }

/-- A manager holding socket 0 whose timeout, 9223372036855 ms, does not fit a
`time.Duration` once multiplied by a million. -/
def hugeTimeoutManager : Logstash :=
  { Hostname := "127.0.0.1", Port := 9000, Connection := some 0, Timeout := 9223372036855 }

/-! ## Sequences of calls -/

/-- One call on the manager. -/
inductive Call where
  | connect
  | writeln (message : Slice)
deriving DecidableEq, Repr

/-- Make one call; the result is the error returned, the manager and the world. -/
def step (env : Env) (call : Call) (l : Logstash) (w : World) :
    Except Fault (Option GoError × Logstash × World) :=
  match call with
  | .connect =>
    match Connect env l w with
    | .error f => .error f
    | .ok ((_, err), l2, w2) => .ok (err, l2, w2)
  | .writeln m => Writeln env l w m

/-- Make the calls one after the other. -/
def run (env : Env) : List Call → Logstash → World → Except Fault (Logstash × World)
  | [], l, w => .ok (l, w)
  | call :: rest, l, w =>
    match step env call l w with
    | .error f => .error f
    | .ok (_, l2, w2) => run env rest l2 w2

/-- The single-owner invariant, for a manager whose own sockets are those with
index `base` and up: every one of them that is open is the held one, and the
held one is one of them and open. -/
def SingleOwner (base : Nat) (l : Logstash) (w : World) : Prop :=
  (∀ c, base ≤ c → w.isOpen c = true → l.Connection = some c) ∧
  (∀ c, l.Connection = some c → base ≤ c ∧ w.isOpen c = true)

/-- Would a `Connect` made now hand out a new handle while one is held? -/
def replaces (env : Env) (l : Logstash) (w : World) : Bool :=
  match l.Connection, Connect env l w with
  | some _, .ok ((some _, _), _, _) => true
  | _, _ => false

/-- No `Connect` of the sequence hands out a new handle while one is held. -/
def noReplace (env : Env) : List Call → Logstash → World → Bool
  | [], _, _ => true
  | call :: rest, l, w =>
    (match call with
      | .connect => !replaces env l w
      | .writeln _ => true) &&
    (match step env call l w with
      | .error _ => true
      | .ok (_, l2, w2) => noReplace env rest l2 w2)

/-- What a run leaves, as the held handle and the state of sockets 0 and 1. -/
def observe (r : Except Fault (Logstash × World)) : Option (Option Nat × Bool × Bool) :=
  match r with
  | .ok (l, w) => some (l.Connection, w.isOpen 0, w.isOpen 1)
  | .error _ => none

/-! ## Basic facts about the library model -/

@[simp] theorem deref_some (c : Nat) : deref (some c) = .ok c := rfl

@[simp] theorem deref_none : deref none = .error .nilDereference := rfl

@[simp] theorem log_conns (w : World) (op : Op) : (w.log op).conns = w.conns := rfl

@[simp] theorem log_trace (w : World) (op : Op) : (w.log op).trace = w.trace ++ [op] := rfl

@[simp] theorem log_heap (w : World) (op : Op) : (w.log op).heap = w.heap := rfl

@[simp] theorem log_isOpen (w : World) (op : Op) (c : Nat) :
    (w.log op).isOpen c = w.isOpen c := rfl

@[simp] theorem update_trace (w : World) (c : Nat) (f : ConnState → ConnState) :
    (w.update c f).trace = w.trace := by
  unfold World.update
  split
  · split <;> rfl
  · rfl

@[simp] theorem update_heap (w : World) (c : Nat) (f : ConnState → ConnState) :
    (w.update c f).heap = w.heap := by
  unfold World.update
  split
  · split <;> rfl
  · rfl

@[simp] theorem update_length (w : World) (c : Nat) (f : ConnState → ConnState) :
    (w.update c f).conns.length = w.conns.length := by
  unfold World.update
  split
  · split
    · simp
    · rfl
  · rfl

theorem update_get_self (w : World) (c : Nat) (f : ConnState → ConnState) (s : ConnState)
    (hs : w.conns[c]? = some s) (ho : s.isOpen = true) :
    (w.update c f).conns[c]? = some (f s) := by
  have hlt : c < w.conns.length := by
    rcases List.getElem?_eq_some_iff.mp hs with ⟨h, _⟩
    exact h
  unfold World.update
  rw [hs]
  simp [ho, hlt]

theorem update_get_other (w : World) (c d : Nat) (f : ConnState → ConnState) (h : d ≠ c) :
    (w.update c f).conns[d]? = w.conns[d]? := by
  unfold World.update
  split
  · split
    · simp [List.getElem?_set, Ne.symm h]
    · rfl
  · rfl

theorem update_closed (w : World) (c : Nat) (f : ConnState → ConnState)
    (h : w.isOpen c = false) : w.update c f = w := by
  unfold World.isOpen at h
  unfold World.update
  split
  · next s hs =>
    rw [hs] at h
    simp only at h
    simp [h]
  · rfl

theorem connClose_isOpen (w : World) (c : Nat) : (connClose w c).isOpen c = false := by
  unfold connClose
  cases hs : w.conns[c]? with
  | none =>
    have h : (w.log (.close c)).isOpen c = false := by
      simp [World.isOpen, hs]
    rw [update_closed _ _ _ h]
    exact h
  | some s =>
    cases ho : s.isOpen with
    | false =>
      have h : (w.log (.close c)).isOpen c = false := by
        simp [World.isOpen, hs, ho]
      rw [update_closed _ _ _ h]
      exact h
    | true =>
      have h := update_get_self (w.log (.close c)) c (fun s => { s with isOpen := false }) s
        (by simpa using hs) ho
      simp [World.isOpen, h]

@[simp] theorem connClose_trace (w : World) (c : Nat) :
    (connClose w c).trace = w.trace ++ [.close c] := by
  simp [connClose]

@[simp] theorem connClose_heap (w : World) (c : Nat) : (connClose w c).heap = w.heap := by
  simp [connClose]

@[simp] theorem connWrite_world (env : Env) (w : World) (c : Nat) (buf : List Byte) :
    (connWrite env w c buf).2.2 = w.log (.write c buf) := by
  unfold connWrite
  split <;> rfl

@[simp] theorem afterAppend_trace (env : Env) (w : World) (m : Slice) :
    (afterAppend env w m).trace = w.trace := rfl

@[simp] theorem afterAppend_conns (env : Env) (w : World) (m : Slice) :
    (afterAppend env w m).conns = w.conns := rfl

@[simp] theorem afterAppend_isOpen (env : Env) (w : World) (m : Slice) (c : Nat) :
    (afterAppend env w m).isOpen c = w.isOpen c := rfl

/-- With a handle held, `SetTimeouts` returns, and this is the world it leaves. -/
theorem SetTimeouts_held (env : Env) (l : Logstash) (w : World) (c : Nat)
    (h : l.Connection = some c) :
    SetTimeouts env l w = .ok
      (SetReadDeadline (SetWriteDeadline (SetDeadline (w.log .now) c
        (env.clock w + durationMul (toDuration l.Timeout) Millisecond)) c
        (env.clock w + durationMul (toDuration l.Timeout) Millisecond)) c
        (env.clock w + durationMul (toDuration l.Timeout) Millisecond)) := by
  simp [SetTimeouts, timeNow, timeAdd, h]

/-- Without a handle, `SetTimeouts` panics. -/
theorem SetTimeouts_absent (env : Env) (l : Logstash) (w : World)
    (h : l.Connection = none) : SetTimeouts env l w = .error .nilDereference := by
  simp [SetTimeouts, timeNow, h]

/-- `Writeln` without a handle. -/
theorem Writeln_absent (env : Env) (l : Logstash) (w : World) (m : Slice)
    (h : l.Connection = none) :
    Writeln env l w m = .ok (some errNotConnected, l, afterAppend env w m) := by
  simp [Writeln, h, errNotConnected, afterAppend]

/-- `Writeln` with a handle, when the write fails. -/
theorem Writeln_held_failure (env : Env) (l : Logstash) (w : World) (m : Slice) (c : Nat)
    (e : GoError) (h : l.Connection = some c)
    (hw : (connWrite env (afterAppend env w m) c (frame env w m)).2.1 = some e) :
    Writeln env l w m = .ok (some e, { l with Connection := none },
      connClose ((afterAppend env w m).log (.write c (frame env w m))) c) := by
  have hw2 : (connWrite env (afterAppend env w m) c (frame env w m)).2.2
      = (afterAppend env w m).log (.write c (frame env w m)) := connWrite_world _ _ _ _
  unfold afterAppend frame at hw hw2
  unfold afterAppend frame
  unfold Writeln
  simp only [h, deref_some]
  generalize connWrite env _ c _ = r at hw hw2 ⊢
  obtain ⟨n, err, w2⟩ := r
  simp only at hw hw2
  subst hw hw2
  simp only
  split <;> rfl

/-- `Writeln` with a handle, when the write succeeds. -/
theorem Writeln_held_success (env : Env) (l : Logstash) (w : World) (m : Slice) (c : Nat)
    (h : l.Connection = some c)
    (hw : (connWrite env (afterAppend env w m) c (frame env w m)).2.1 = none) :
    Writeln env l w m =
      match SetTimeouts env l ((afterAppend env w m).log (.write c (frame env w m))) with
      | .error f => .error f
      | .ok w2 => .ok (none, l, w2) := by
  have hw2 : (connWrite env (afterAppend env w m) c (frame env w m)).2.2
      = (afterAppend env w m).log (.write c (frame env w m)) := connWrite_world _ _ _ _
  unfold afterAppend frame at hw hw2
  unfold afterAppend frame
  unfold Writeln
  simp only [h, deref_some]
  generalize connWrite env _ c _ = r at hw hw2 ⊢
  obtain ⟨n, err, w2⟩ := r
  simp only at hw hw2
  subst hw hw2
  rfl

/-! ## Facts about `append` -/

theorem array_eq (h : Heap) (a : Nat) : h.array a = (h[a]?).getD [] := by
  simp [Heap.array, List.getD_eq_getElem?_getD]

theorem array_set_self (h : Heap) (a : Nat) (x : List Byte) (ha : a < h.length) :
    Heap.array (h.set a x) a = x := by
  simp [array_eq, List.getElem?_set, ha]

theorem array_set_other (h : Heap) (a a' : Nat) (x : List Byte) (hne : a' ≠ a) :
    Heap.array (h.set a x) a' = h.array a' := by
  simp [array_eq, List.getElem?_set, Ne.symm hne]

theorem array_append_old (h : Heap) (x : List Byte) (a : Nat) (ha : a < h.length) :
    Heap.array (h ++ [x]) a = h.array a := by
  simp [array_eq, List.getElem?_append_left, ha]

theorem array_append_new (h : Heap) (x : List Byte) :
    Heap.array (h ++ [x]) h.length = x := by
  simp [array_eq]

theorem wf_arr_lt (h : Heap) (s : Slice) (hwf : s.WF h) (hcap : 0 < s.cap) :
    s.arr < h.length := by
  by_contra hge
  have : h.array s.arr = [] := by
    simp [array_eq, List.getElem?_eq_none (Nat.le_of_not_lt hge)]
  have h2 := hwf.2
  rw [this] at h2
  simp at h2
  omega

theorem sliceBytes_length (h : Heap) (s : Slice) (hwf : s.WF h) :
    (sliceBytes h s).length = s.len := by
  have h1 := hwf.1
  have h2 := hwf.2
  simp [sliceBytes]
  omega

/-- The appended slice reads as the old elements followed by the new byte. -/
theorem goAppend_bytes (grow : Nat → Nat) (h : Heap) (s : Slice) (b : Byte) (hwf : s.WF h) :
    sliceBytes (goAppend grow h s b).1 (goAppend grow h s b).2 = sliceBytes h s ++ [b] := by
  have h1 := hwf.1
  have h2 := hwf.2
  unfold goAppend
  split
  · next hlt =>
    have ha : s.arr < h.length := wf_arr_lt h s hwf (by omega)
    simp only [sliceBytes, array_set_self h _ _ ha]
    apply List.ext_getElem?
    intro i
    simp only [List.getElem?_take, List.getElem?_drop, List.getElem?_set, List.getElem?_append]
    by_cases hi : i < s.len
    · have : ¬ (s.off + s.len = s.off + i) := by omega
      have hi3 : i < (h.array s.arr).length - s.off := by omega
      simp [hi, this, Nat.lt_succ_of_lt hi, List.length_take, List.length_drop, hi3]
    · by_cases hi2 : i = s.len
      · subst hi2
        have hlen : s.off + s.len < (h.array s.arr).length := by omega
        have hmin : min s.len ((h.array s.arr).length - s.off) = s.len := by omega
        simp [hlen, List.length_take, List.length_drop, hmin]
      · have hmin : min s.len ((h.array s.arr).length - s.off) = s.len := by omega
        have h3 : ¬ i < s.len + 1 := by omega
        have h4 : ¬ i - s.len < 1 := by omega
        simp [hi, h3, List.length_take, List.length_drop, hmin]
        omega
  · next hge =>
    have hlen := sliceBytes_length h s hwf
    simp only [sliceBytes, array_append_new, List.drop_zero]
    rw [List.take_append_eq_append_take]
    have hl2 : (List.take s.len (List.drop s.off (h.array s.arr)) ++ [b]).length = s.len + 1 := by
      simpa [sliceBytes] using hlen
    simp [hl2, List.take_of_length_le]

/-- The caller's own slice still reads the same elements. -/
theorem goAppend_caller_bytes (grow : Nat → Nat) (h : Heap) (s : Slice) (b : Byte)
    (hwf : s.WF h) : sliceBytes (goAppend grow h s b).1 s = sliceBytes h s := by
  have h1 := hwf.1
  have h2 := hwf.2
  unfold goAppend
  split
  · next hlt =>
    have ha : s.arr < h.length := wf_arr_lt h s hwf (by omega)
    simp only [sliceBytes, array_set_self h _ _ ha]
    apply List.ext_getElem?
    intro i
    simp only [List.getElem?_take, List.getElem?_drop, List.getElem?_set]
    by_cases hi : i < s.len
    · have : ¬ (s.off + s.len = s.off + i) := by omega
      simp [hi, this]
    · simp [hi]
  · next hge =>
    by_cases ha : s.arr < h.length
    · simp only [sliceBytes, array_append_old h _ _ ha]
    · have hnil : h.array s.arr = [] := by
        simp [array_eq, List.getElem?_eq_none (Nat.le_of_not_lt ha)]
      have hz : s.len = 0 := by
        rw [hnil] at h2
        simp at h2
        omega
      simp [sliceBytes, hz]

/-- Every byte of an existing array other than the one at index `len` of the
slice keeps its value, and no existing array changes its length. -/
theorem goAppend_frame (grow : Nat → Nat) (h : Heap) (s : Slice) (b : Byte) (a i : Nat)
    (ha : a < h.length) (hne : a ≠ s.arr ∨ i ≠ s.off + s.len) :
    ((goAppend grow h s b).1.array a)[i]? = (h.array a)[i]? ∧
    ((goAppend grow h s b).1.array a).length = (h.array a).length := by
  unfold goAppend
  split
  · by_cases hs : a = s.arr
    · subst hs
      have hi : i ≠ s.off + s.len := by
        rcases hne with h0 | h0
        · exact absurd rfl h0
        · exact h0
      simp [array_set_self h _ _ ha, List.getElem?_set, Ne.symm hi]
    · simp [array_set_other h _ _ _ hs]
  · simp [array_append_old h _ _ ha]

/-- Without spare capacity no existing array changes. -/
theorem goAppend_full (grow : Nat → Nat) (h : Heap) (s : Slice) (b : Byte) (a : Nat)
    (ha : a < h.length) (hfull : ¬ s.len < s.cap) :
    (goAppend grow h s b).1.array a = h.array a := by
  unfold goAppend
  simp [hfull, array_append_old h _ _ ha]

/-- With spare capacity the byte lands in the caller's backing array. -/
theorem goAppend_spare (grow : Nat → Nat) (h : Heap) (s : Slice) (b : Byte)
    (hwf : s.WF h) (hspare : s.len < s.cap) :
    ((goAppend grow h s b).1.array s.arr)[s.off + s.len]? = some b := by
  have h2 := hwf.2
  have ha : s.arr < h.length := wf_arr_lt h s hwf (by omega)
  unfold goAppend
  have hlt : s.off + s.len < (h.array s.arr).length := by omega
  simp [hspare, array_set_self h _ _ ha, List.getElem?_set, hlt]

/-- `Connect` when the resolver fails. -/
theorem Connect_resolve_error (env : Env) (l : Logstash) (w : World) (e : GoError)
    (hr : env.resolve w "tcp" (sprintfHostPort l.Hostname l.Port) = .error e) :
    Connect env l w = .ok ((none, some e), l,
      w.log (.resolve "tcp" (sprintfHostPort l.Hostname l.Port))) := by
  simp [Connect, ResolveTCPAddr, hr]

/-- `Connect` when the resolver answers and the dial fails. -/
theorem Connect_dial_error (env : Env) (l : Logstash) (w : World) (addr : TCPAddr)
    (e : GoError)
    (hr : env.resolve w "tcp" (sprintfHostPort l.Hostname l.Port) = .ok addr)
    (hd : env.dial (w.log (.resolve "tcp" (sprintfHostPort l.Hostname l.Port))) "tcp" addr
      = .failed e) :
    Connect env l w = .ok ((none, some e), l,
      (w.log (.resolve "tcp" (sprintfHostPort l.Hostname l.Port))).log (.dial "tcp" addr)) := by
  simp [Connect, ResolveTCPAddr, DialTCP, hr, hd]

/-- `Connect` when the dial answers neither a connection nor an error. -/
theorem Connect_dial_nothing (env : Env) (l : Logstash) (w : World) (addr : TCPAddr)
    (hr : env.resolve w "tcp" (sprintfHostPort l.Hostname l.Port) = .ok addr)
    (hd : env.dial (w.log (.resolve "tcp" (sprintfHostPort l.Hostname l.Port))) "tcp" addr
      = .nothing) :
    Connect env l w = .ok ((none, none), l,
      (w.log (.resolve "tcp" (sprintfHostPort l.Hostname l.Port))).log (.dial "tcp" addr)) := by
  simp [Connect, ResolveTCPAddr, DialTCP, hr, hd]

/-- `Connect` when the resolver answers and the dial connects. -/
theorem Connect_connected (env : Env) (l : Logstash) (w : World) (addr : TCPAddr)
    (hr : env.resolve w "tcp" (sprintfHostPort l.Hostname l.Port) = .ok addr)
    (hd : env.dial (w.log (.resolve "tcp" (sprintfHostPort l.Hostname l.Port))) "tcp" addr
      = .connected) :
    Connect env l w =
      match SetTimeouts env { l with Connection := some w.conns.length }
          (optionsSet (dialed w l addr) w.conns.length) with
      | .error f => .error f
      | .ok w2 => .ok ((some w.conns.length, none),
          { l with Connection := some w.conns.length }, w2) := by
  simp only [Connect, ResolveTCPAddr, DialTCP, hr, hd, deref_some]
  simp [optionsSet, dialed, World.log]

theorem update_last (pre : List ConnState) (s : ConnState) (tr : List Op) (hp : Heap)
    (f : ConnState → ConnState) (ho : s.isOpen = true) :
    World.update { conns := pre ++ [s], trace := tr, heap := hp } pre.length f
      = { conns := pre ++ [f s], trace := tr, heap := hp } := by
  unfold World.update
  simp [ho]

theorem wrapInt64_fits (x : Int) (hlo : minInt64 ≤ x) (hhi : x ≤ maxInt64) :
    wrapInt64 x = x := by
  unfold wrapInt64
  unfold minInt64 at hlo
  unfold maxInt64 at hhi
  norm_num at hlo hhi ⊢
  omega

theorem keepAlivePeriod_value : durationMul (toDuration 5) Second = 5000000000 := by
  decide

/-- The duration `SetTimeouts` adds, when it fits an `int64`. -/
theorem duration_fits (t : Int) (hlo : minInt64 ≤ t * 1000000) (hhi : t * 1000000 ≤ maxInt64) :
    durationMul (toDuration t) Millisecond = t * 1000000 := by
  have h1 : toDuration t = t := by
    unfold toDuration
    apply wrapInt64_fits
    · unfold minInt64 at *
      norm_num at hlo hhi ⊢
      omega
    · unfold maxInt64 minInt64 at *
      norm_num at hlo hhi ⊢
      omega
  unfold durationMul Millisecond
  rw [h1]
  exact wrapInt64_fits _ hlo hhi

/-- The socket table and the log after the option calls of `Connect`. -/
theorem optionsSet_dialed (w : World) (l : Logstash) (addr : TCPAddr) :
    optionsSet (dialed w l addr) w.conns.length =
      { conns := w.conns ++ [{ freshConn with linger := 0, noDelay := true, keepAlive := true,
                                              keepAlivePeriod := 5000000000 }],
        trace := w.trace ++ [.resolve "tcp" (sprintfHostPort l.Hostname l.Port),
          .dial "tcp" addr, .setLinger w.conns.length 0, .setNoDelay w.conns.length true,
          .setKeepAlive w.conns.length true,
          .setKeepAlivePeriod w.conns.length 5000000000],
        heap := w.heap } := by
  simp only [optionsSet, dialed, SetLinger, SetNoDelay, SetKeepAlive, SetKeepAlivePeriod,
    World.log, keepAlivePeriod_value]
  rw [update_last _ _ _ _ _ rfl]
  simp only
  rw [update_last _ _ _ _ _ rfl]
  simp only
  rw [update_last _ _ _ _ _ rfl]
  simp only
  rw [update_last _ _ _ _ _ rfl]
  simp [freshConn]

theorem update_open (w : World) (c : Nat) (f : ConnState → ConnState) (s : ConnState)
    (hs : w.conns[c]? = some s) (ho : s.isOpen = true) :
    w.update c f = { w with conns := w.conns.set c (f s) } := by
  unfold World.update
  rw [hs]
  simp [ho]

/-- On an open held socket `SetTimeouts` reads the clock once and stores the one
deadline three times. -/
theorem SetTimeouts_open (env : Env) (l : Logstash) (w : World) (c : Nat) (s : ConnState)
    (h : l.Connection = some c) (hs : w.conns[c]? = some s) (ho : s.isOpen = true) :
    SetTimeouts env l w = .ok
      { conns := w.conns.set c { s with readDeadline := some (deadlineAt l (env.clock w)),
                                        writeDeadline := some (deadlineAt l (env.clock w)) },
        trace := w.trace ++ [.now, .setDeadline c (deadlineAt l (env.clock w)),
          .setWriteDeadline c (deadlineAt l (env.clock w)),
          .setReadDeadline c (deadlineAt l (env.clock w))],
        heap := w.heap } := by
  have hlt : c < w.conns.length := (List.getElem?_eq_some_iff.mp hs).1
  rw [SetTimeouts_held env l w c h]
  simp only [deadlineAt, timeAdd]
  generalize env.clock w + durationMul (toDuration l.Timeout) Millisecond = d
  have e1 : SetDeadline (w.log .now) c d =
      { conns := w.conns.set c { s with readDeadline := some d, writeDeadline := some d },
        trace := w.trace ++ [.now, .setDeadline c d], heap := w.heap } := by
    unfold SetDeadline
    rw [update_open _ c _ s (by simpa using hs) ho]
    simp [World.log]
  rw [e1]
  have e2 : ∀ (cs : List ConnState) (tr : List Op), cs.length = w.conns.length →
      cs[c]? = some { s with readDeadline := some d, writeDeadline := some d } →
      SetWriteDeadline { conns := cs, trace := tr, heap := w.heap } c d =
      { conns := cs.set c { s with readDeadline := some d, writeDeadline := some d },
        trace := tr ++ [.setWriteDeadline c d], heap := w.heap } := by
    intro cs tr _ hcs
    unfold SetWriteDeadline
    rw [update_open _ c _ { s with readDeadline := some d, writeDeadline := some d }
      (by simpa using hcs) ho]
    simp [World.log]
  have e3 : ∀ (cs : List ConnState) (tr : List Op), cs.length = w.conns.length →
      cs[c]? = some { s with readDeadline := some d, writeDeadline := some d } →
      SetReadDeadline { conns := cs, trace := tr, heap := w.heap } c d =
      { conns := cs.set c { s with readDeadline := some d, writeDeadline := some d },
        trace := tr ++ [.setReadDeadline c d], heap := w.heap } := by
    intro cs tr _ hcs
    unfold SetReadDeadline
    rw [update_open _ c _ { s with readDeadline := some d, writeDeadline := some d }
      (by simpa using hcs) ho]
    simp [World.log]
  rw [e2 _ _ (by simp) (by simp [hlt])]
  rw [e3 _ _ (by simp) (by simp [hlt])]
  simp

@[simp] theorem SetDeadline_trace (w : World) (c : Nat) (t : Int) :
    (SetDeadline w c t).trace = w.trace ++ [.setDeadline c t] := by
  simp [SetDeadline]

@[simp] theorem SetWriteDeadline_trace (w : World) (c : Nat) (t : Int) :
    (SetWriteDeadline w c t).trace = w.trace ++ [.setWriteDeadline c t] := by
  simp [SetWriteDeadline]

@[simp] theorem SetReadDeadline_trace (w : World) (c : Nat) (t : Int) :
    (SetReadDeadline w c t).trace = w.trace ++ [.setReadDeadline c t] := by
  simp [SetReadDeadline]

@[simp] theorem SetDeadline_heap (w : World) (c : Nat) (t : Int) :
    (SetDeadline w c t).heap = w.heap := by
  simp [SetDeadline]

@[simp] theorem SetWriteDeadline_heap (w : World) (c : Nat) (t : Int) :
    (SetWriteDeadline w c t).heap = w.heap := by
  simp [SetWriteDeadline]

@[simp] theorem SetReadDeadline_heap (w : World) (c : Nat) (t : Int) :
    (SetReadDeadline w c t).heap = w.heap := by
  simp [SetReadDeadline]

/-- The three ways a `Writeln` call can go; it returns in each. -/
theorem Writeln_cases (env : Env) (l : Logstash) (w : World) (m : Slice) :
    (l.Connection = none ∧
      Writeln env l w m = .ok (some errNotConnected, l, afterAppend env w m)) ∨
    (∃ c e, l.Connection = some c ∧
      (connWrite env (afterAppend env w m) c (frame env w m)).2.1 = some e ∧
      Writeln env l w m = .ok (some e, { l with Connection := none },
        connClose ((afterAppend env w m).log (.write c (frame env w m))) c)) ∨
    (∃ c w2, l.Connection = some c ∧
      (connWrite env (afterAppend env w m) c (frame env w m)).2.1 = none ∧
      SetTimeouts env l ((afterAppend env w m).log (.write c (frame env w m))) = .ok w2 ∧
      Writeln env l w m = .ok (none, l, w2)) := by
  cases hc : l.Connection with
  | none => exact Or.inl ⟨rfl, Writeln_absent env l w m hc⟩
  | some c =>
    cases hw : (connWrite env (afterAppend env w m) c (frame env w m)).2.1 with
    | some e =>
      exact Or.inr (Or.inl ⟨c, e, rfl, hw, Writeln_held_failure env l w m c e hc hw⟩)
    | none =>
      refine Or.inr (Or.inr ⟨c, _, rfl, hw, SetTimeouts_held env l _ c hc, ?_⟩)
      rw [Writeln_held_success env l w m c hc hw, SetTimeouts_held env l _ c hc]

/-- A write that succeeds was made on an open socket. -/
theorem connWrite_ok_open (env : Env) (w : World) (c : Nat) (buf : List Byte)
    (h : (connWrite env w c buf).2.1 = none) : w.isOpen c = true := by
  unfold connWrite at h
  by_contra hn
  simp [hn] at h

theorem isOpen_get (w : World) (c : Nat) (h : w.isOpen c = true) :
    ∃ s, w.conns[c]? = some s ∧ s.isOpen = true := by
  unfold World.isOpen at h
  cases hs : w.conns[c]? with
  | none => simp [hs] at h
  | some s =>
    rw [hs] at h
    exact ⟨s, rfl, h⟩

/-! ## Claims -/

/-- C1: for every manager holding a handle and every payload, if the write fails
with any error, timeout or not, `Writeln` returns exactly that error, leaves the
manager with no handle and the handle closed; the world it leaves is the same
expression whatever the class of the error. -/
theorem Writeln_write_failure_discards_handle (env : Env) (l : Logstash) (w : World)
    (m : Slice) (c : Nat) (e : GoError) (hheld : l.Connection = some c)
    (hfail : (connWrite env (afterAppend env w m) c (frame env w m)).2.1 = some e) :
    ∃ w2, Writeln env l w m = .ok (some e, { l with Connection := none }, w2) ∧
      w2 = connClose ((afterAppend env w m).log (.write c (frame env w m))) c ∧
      w2.isOpen c = false ∧
      w2.trace = w.trace ++ [.write c (frame env w m), .close c] := by
  refine ⟨_, Writeln_held_failure env l w m c e hheld hfail, rfl, connClose_isOpen _ _, ?_⟩
  simp

/-- C1 at a concrete input: a write that times out on held socket 0. -/
theorem Writeln_write_failure_discards_handle_witness :
    heldManager.Connection = some 0 ∧
    ∃ w2, Writeln envWriteTimeout heldManager worldOneConn sliceSpare
        = .ok (some errTimeout, { heldManager with Connection := none }, w2) ∧
      w2 = connClose ((afterAppend envWriteTimeout worldOneConn sliceSpare).log
        (.write 0 (frame envWriteTimeout worldOneConn sliceSpare))) 0 ∧
      w2.isOpen 0 = false ∧
      w2.trace = worldOneConn.trace ++
        [.write 0 (frame envWriteTimeout worldOneConn sliceSpare), .close 0] :=
  ⟨rfl, Writeln_write_failure_discards_handle envWriteTimeout heldManager worldOneConn
    sliceSpare 0 errTimeout rfl rfl⟩

/-- C2: for every payload and every manager holding no handle, and so for one
just built by `New`, `Writeln` returns the error "tcp connection is nil", logs no
library call, changes no socket and leaves the manager as it was. -/
theorem Writeln_without_handle_not_connected (env : Env) (l : Logstash) (w : World)
    (m : Slice) (hostname : String) (port timeout : Int) (habsent : l.Connection = none) :
    (∃ w2, Writeln env l w m = .ok (some (errorsNew "tcp connection is nil"), l, w2) ∧
      w2.trace = w.trace ∧ w2.conns = w.conns) ∧
    (New hostname port timeout).Connection = none ∧
    (∃ w2, Writeln env (New hostname port timeout) w m
        = .ok (some (errorsNew "tcp connection is nil"), New hostname port timeout, w2) ∧
      w2.trace = w.trace ∧ w2.conns = w.conns) :=
  ⟨⟨_, Writeln_absent env l w m habsent, rfl, rfl⟩, rfl,
    ⟨_, Writeln_absent env (New hostname port timeout) w m rfl, rfl, rfl⟩⟩

/-- C2 at a concrete input: a manager just built by `New`. -/
theorem Writeln_without_handle_not_connected_witness :
    (New "127.0.0.1" 9000 5000).Connection = none ∧
    ∃ w2, Writeln envAllOk (New "127.0.0.1" 9000 5000) worldNoConn sliceSpare
        = .ok (some (errorsNew "tcp connection is nil"), New "127.0.0.1" 9000 5000, w2) ∧
      w2.trace = worldNoConn.trace ∧ w2.conns = worldNoConn.conns :=
  ⟨rfl, (Writeln_without_handle_not_connected envAllOk (New "127.0.0.1" 9000 5000)
    worldNoConn sliceSpare "127.0.0.1" 9000 5000 rfl).1⟩

/-- C3: whatever the manager state, the payloads and the transport, if a `Writeln`
call returns an error then the next `Writeln` call, with no `Connect` in between,
returns the error "tcp connection is nil" and logs no call, so attempts no write. -/
theorem Writeln_after_failure_not_connected (env env2 : Env) (l l1 : Logstash)
    (w w1 : World) (m1 m2 : Slice) (e : GoError)
    (hfirst : Writeln env l w m1 = .ok (some e, l1, w1)) :
    l1.Connection = none ∧
    ∃ w2, Writeln env2 l1 w1 m2 = .ok (some (errorsNew "tcp connection is nil"), l1, w2) ∧
      w2.trace = w1.trace ∧ w2.conns = w1.conns := by
  have habsent : l1.Connection = none := by
    rcases Writeln_cases env l w m1 with ⟨hc, hr⟩ | ⟨c, e2, _, _, hr⟩ | ⟨c, w2, _, _, _, hr⟩
    · rw [hr] at hfirst
      injection hfirst with h
      injection h with _ h
      injection h with h _
      rw [← h]
      exact hc
    · rw [hr] at hfirst
      injection hfirst with h
      injection h with _ h
      injection h with h _
      rw [← h]
    · rw [hr] at hfirst
      injection hfirst with h
      injection h with h _
      cases h
  exact ⟨habsent, _, Writeln_absent env2 l1 w1 m2 habsent, rfl, rfl⟩

/-- C3 at a concrete input: a write that times out, then a second call. -/
theorem Writeln_after_failure_not_connected_witness :
    Writeln envWriteTimeout heldManager worldOneConn sliceSpare
      = .ok (some errTimeout, { heldManager with Connection := none },
          connClose ((afterAppend envWriteTimeout worldOneConn sliceSpare).log
            (.write 0 (frame envWriteTimeout worldOneConn sliceSpare))) 0) ∧
    ∃ w2, Writeln envAllOk { heldManager with Connection := none }
        (connClose ((afterAppend envWriteTimeout worldOneConn sliceSpare).log
          (.write 0 (frame envWriteTimeout worldOneConn sliceSpare))) 0) sliceTight
        = .ok (some (errorsNew "tcp connection is nil"),
            { heldManager with Connection := none }, w2) ∧
      w2.trace = (connClose ((afterAppend envWriteTimeout worldOneConn sliceSpare).log
          (.write 0 (frame envWriteTimeout worldOneConn sliceSpare))) 0).trace ∧
      w2.conns = (connClose ((afterAppend envWriteTimeout worldOneConn sliceSpare).log
          (.write 0 (frame envWriteTimeout worldOneConn sliceSpare))) 0).conns :=
  ⟨rfl, (Writeln_after_failure_not_connected envWriteTimeout envAllOk heldManager _
    worldOneConn _ sliceSpare sliceTight errTimeout rfl).2⟩

/-- C4: for every payload, empty or holding newlines or not, and every manager
holding a handle, `Writeln` returns and logs exactly one `Write` on the handle,
whether it succeeds or fails, and the buffer written is the payload followed by
the single byte 0x0A. -/
theorem Writeln_single_write_exact_frame (env : Env) (l : Logstash) (w : World)
    (m : Slice) (c : Nat) (hwf : m.WF w.heap) (hheld : l.Connection = some c) :
    ∃ err l2 w2 rest, Writeln env l w m = .ok (err, l2, w2) ∧
      w2.trace = w.trace ++ (.write c (sliceBytes w.heap m ++ [10]) :: rest) ∧
      ∀ op ∈ rest, op.isWrite = false := by
  have hframe : frame env w m = sliceBytes w.heap m ++ [10] :=
    goAppend_bytes env.growCap w.heap m 10 hwf
  rcases Writeln_cases env l w m with ⟨hc, _⟩ | ⟨c2, e, hc, _, hr⟩ | ⟨c2, w2, hc, _, hs, hr⟩
  · rw [hheld] at hc
    cases hc
  · rw [hheld] at hc
    cases hc
    refine ⟨_, _, _, [.close c], hr, ?_, ?_⟩
    · simp [hframe]
    · intro op hop
      simp at hop
      subst hop
      rfl
  · rw [hheld] at hc
    cases hc
    rw [SetTimeouts_held env l _ c hheld] at hs
    injection hs with hs
    subst hs
    refine ⟨_, _, _, [.now, .setDeadline c (deadlineAt l (nowAfterWrite env w m c)),
      .setWriteDeadline c (deadlineAt l (nowAfterWrite env w m c)),
      .setReadDeadline c (deadlineAt l (nowAfterWrite env w m c))], hr, ?_, ?_⟩
    · simp [hframe, deadlineAt, nowAfterWrite, timeAdd]
    · intro op hop
      simp at hop
      rcases hop with h | h | h | h <;> subst h <;> rfl

/-- C4 at a concrete input: the payload `hi` is written as `hi` and 0x0A. -/
theorem Writeln_single_write_exact_frame_witness :
    sliceTight.WF worldOneConn.heap ∧ heldManager.Connection = some 0 ∧
    ∃ err l2 w2 rest, Writeln envAllOk heldManager worldOneConn sliceTight = .ok (err, l2, w2) ∧
      w2.trace = worldOneConn.trace ++
        (.write 0 (sliceBytes worldOneConn.heap sliceTight ++ [10]) :: rest) ∧
      ∀ op ∈ rest, op.isWrite = false :=
  ⟨by decide, rfl, Writeln_single_write_exact_frame envAllOk heldManager worldOneConn
    sliceTight 0 (by decide) rfl⟩

/-- Appending changes the length of no existing array. -/
theorem goAppend_length (grow : Nat → Nat) (h : Heap) (s : Slice) (b : Byte) (a : Nat)
    (ha : a < h.length) :
    ((goAppend grow h s b).1.array a).length = (h.array a).length := by
  unfold goAppend
  split
  · by_cases hs : a = s.arr
    · subst hs
      simp [array_set_self h _ _ ha]
    · simp [array_set_other h _ _ _ hs]
  · simp [array_append_old h _ _ ha]

/-- The only change `Writeln` makes to the heap is the `append`. -/
theorem Writeln_heap (env : Env) (l l2 : Logstash) (w w2 : World) (m : Slice)
    (err : Option GoError) (h : Writeln env l w m = .ok (err, l2, w2)) :
    w2.heap = (goAppend env.growCap w.heap m 10).1 := by
  rcases Writeln_cases env l w m with ⟨_, hr⟩ | ⟨c, e, _, _, hr⟩ | ⟨c, w3, hc, _, hs, hr⟩
  · rw [hr] at h
    injection h with h
    injection h with _ h
    injection h with _ h
    rw [← h]
    rfl
  · rw [hr] at h
    injection h with h
    injection h with _ h
    injection h with _ h
    rw [← h]
    simp [afterAppend]
  · rw [hr] at h
    injection h with h
    injection h with _ h
    injection h with _ h
    rw [← h]
    rw [SetTimeouts_held env l _ c hc] at hs
    injection hs with hs
    rw [← hs]
    simp [afterAppend]

/-- `Writeln` always returns. -/
theorem Writeln_returns (env : Env) (l : Logstash) (w : World) (m : Slice) :
    ∃ err l2 w2, Writeln env l w m = .ok (err, l2, w2) := by
  rcases Writeln_cases env l w m with ⟨_, hr⟩ | ⟨c, e, _, _, hr⟩ | ⟨c, w3, hc, _, hs, hr⟩
  · exact ⟨_, _, _, hr⟩
  · exact ⟨_, _, _, hr⟩
  · exact ⟨_, _, _, hr⟩

/-- `Connect` when the resolver answers and the dial connects, in full. -/
theorem Connect_connected_world (env : Env) (l : Logstash) (w : World) (addr : TCPAddr)
    (hr : env.resolve w "tcp" (sprintfHostPort l.Hostname l.Port) = .ok addr)
    (hd : env.dial (w.log (.resolve "tcp" (sprintfHostPort l.Hostname l.Port))) "tcp" addr
      = .connected) :
    Connect env l w = .ok ((some w.conns.length, none),
      { l with Connection := some w.conns.length }, connectedWorld env l w addr) := by
  rw [Connect_connected env l w addr hr hd]
  have hopen := SetTimeouts_open env { l with Connection := some w.conns.length }
    (optionsSet (dialed w l addr) w.conns.length) w.conns.length
    { freshConn with linger := 0, noDelay := true, keepAlive := true,
                     keepAlivePeriod := 5000000000 } rfl
    (by rw [optionsSet_dialed]; simp) rfl
  rw [hopen]
  simp only [connectedWorld, nowAtConnect, deadlineAt]
  rw [optionsSet_dialed]
  simp [freshConn]

/-- The four ways a `Connect` call can go; it returns in each. -/
theorem Connect_cases (env : Env) (l : Logstash) (w : World) :
    (∃ e w2, Connect env l w = .ok ((none, some e), l, w2) ∧ w2.conns = w.conns) ∨
    (∃ w2, Connect env l w = .ok ((none, none), l, w2) ∧ w2.conns = w.conns) ∨
    (∃ addr, Connect env l w = .ok ((some w.conns.length, none),
      { l with Connection := some w.conns.length }, connectedWorld env l w addr)) := by
  cases hr : env.resolve w "tcp" (sprintfHostPort l.Hostname l.Port) with
  | error e => exact Or.inl ⟨e, _, Connect_resolve_error env l w e hr, rfl⟩
  | ok addr =>
    cases hd : env.dial (w.log (.resolve "tcp" (sprintfHostPort l.Hostname l.Port))) "tcp" addr with
    | connected => exact Or.inr (Or.inr ⟨addr, Connect_connected_world env l w addr hr hd⟩)
    | failed e => exact Or.inl ⟨e, _, Connect_dial_error env l w addr e hr hd, rfl⟩
    | nothing => exact Or.inr (Or.inl ⟨_, Connect_dial_nothing env l w addr hr hd, rfl⟩)

/-- C5, as stated, fails: with spare capacity `append` stores the terminator in
the caller's backing array.  The caller's array `h i 0` becomes `h i 0x0A`. -/
theorem Writeln_overwrites_spare_capacity :
    sliceSpare.WF worldNoConn.heap ∧
    worldNoConn.heap.array sliceSpare.arr = [104, 105, 0] ∧
    ∃ err l2 w2, Writeln envAllOk (New "127.0.0.1" 9000 5000) worldNoConn sliceSpare
        = .ok (err, l2, w2) ∧
      w2.heap.array sliceSpare.arr = [104, 105, 10] :=
  ⟨by decide, rfl, _, _, _, rfl, rfl⟩

/-- C5, amended: for every payload slice, after `Writeln` the caller's slice reads
the same elements, no existing array changes its length, and every byte of every
existing array keeps its value except the one at index `len` of the slice in its
backing array; that byte becomes 0x0A when the slice has spare capacity, and when
it has none no existing array changes at all. -/
theorem Writeln_caller_buffer (env : Env) (l : Logstash) (w : World) (m : Slice)
    (hwf : m.WF w.heap) :
    ∃ err l2 w2, Writeln env l w m = .ok (err, l2, w2) ∧
      sliceBytes w2.heap m = sliceBytes w.heap m ∧
      (∀ a, a < w.heap.length → (w2.heap.array a).length = (w.heap.array a).length) ∧
      (∀ a i, a < w.heap.length → (a ≠ m.arr ∨ i ≠ m.off + m.len) →
        (w2.heap.array a)[i]? = (w.heap.array a)[i]?) ∧
      (m.len = m.cap → ∀ a, a < w.heap.length → w2.heap.array a = w.heap.array a) ∧
      (m.len < m.cap → (w2.heap.array m.arr)[m.off + m.len]? = some 10) := by
  obtain ⟨err, l2, w2, hr⟩ := Writeln_returns env l w m
  have hh := Writeln_heap env l l2 w w2 m err hr
  refine ⟨err, l2, w2, hr, ?_, ?_, ?_, ?_, ?_⟩
  · rw [hh]
    exact goAppend_caller_bytes _ _ _ _ hwf
  · intro a ha
    rw [hh]
    exact goAppend_length _ _ _ _ _ ha
  · intro a i ha hne
    rw [hh]
    exact (goAppend_frame _ _ _ _ a i ha hne).1
  · intro hfull a ha
    rw [hh]
    exact goAppend_full _ _ _ _ _ ha (by omega)
  · intro hspare
    rw [hh]
    exact goAppend_spare _ _ _ _ hwf hspare

/-- C5, amended, at a concrete input: the slice `hi` with one spare byte. -/
theorem Writeln_caller_buffer_witness :
    sliceSpare.WF worldNoConn.heap ∧
    ∃ err l2 w2, Writeln envAllOk heldManager worldNoConn sliceSpare = .ok (err, l2, w2) ∧
      sliceBytes w2.heap sliceSpare = sliceBytes worldNoConn.heap sliceSpare ∧
      (∀ a, a < worldNoConn.heap.length →
        (w2.heap.array a).length = (worldNoConn.heap.array a).length) ∧
      (∀ a i, a < worldNoConn.heap.length →
        (a ≠ sliceSpare.arr ∨ i ≠ sliceSpare.off + sliceSpare.len) →
        (w2.heap.array a)[i]? = (worldNoConn.heap.array a)[i]?) ∧
      (sliceSpare.len = sliceSpare.cap →
        ∀ a, a < worldNoConn.heap.length → w2.heap.array a = worldNoConn.heap.array a) ∧
      (sliceSpare.len < sliceSpare.cap →
        (w2.heap.array sliceSpare.arr)[sliceSpare.off + sliceSpare.len]? = some 10) :=
  ⟨by decide, Writeln_caller_buffer envAllOk heldManager worldNoConn sliceSpare (by decide)⟩

/-- C6, as stated, fails: for the positive timeout 9223372036855 ms the duration
wraps around in `int64`; the clock reads 1001 and the deadline stored is
-9223372036854550615, not 1001 + 9223372036855 * 1000000. -/
theorem Writeln_deadline_overflow :
    (0 : Int) < hugeTimeoutManager.Timeout ∧
    nowAfterWrite envAllOk worldOneConn sliceTight 0 = 1001 ∧
    Writeln envAllOk hugeTimeoutManager worldOneConn sliceTight =
      .ok (none, hugeTimeoutManager,
        { conns := [{ freshConn with readDeadline := some (-9223372036854550615),
                                     writeDeadline := some (-9223372036854550615) }],
          trace := [.write 0 [104, 105, 10], .now, .setDeadline 0 (-9223372036854550615),
            .setWriteDeadline 0 (-9223372036854550615),
            .setReadDeadline 0 (-9223372036854550615)],
          heap := [[104, 105, 0], [104, 105, 10, 0, 0, 0]] }) ∧
    (-9223372036854550615 : Int) ≠ 1001 + hugeTimeoutManager.Timeout * 1000000 :=
  ⟨by decide, rfl, rfl, by decide⟩

/-- C6, amended: for every timeout T whose count of nanoseconds, T * 1000000,
fits an `int64`, and every manager holding a handle: when the write succeeds
`Writeln` returns no error and keeps the handle; the socket was open, and after
the call its read and write deadlines are both now + T * 1000000 ns, where now
is the one clock reading taken after the write; the calls logged are the write,
the clock reading, `SetDeadline`, `SetWriteDeadline` and `SetReadDeadline`, each
with that instant; and `SetTimeouts` run on the world after the write computes
just that. -/
theorem Writeln_success_rearms_deadline (env : Env) (l : Logstash) (w : World) (m : Slice)
    (c : Nat) (hlo : minInt64 ≤ l.Timeout * 1000000) (hhi : l.Timeout * 1000000 ≤ maxInt64)
    (hheld : l.Connection = some c)
    (hok : (connWrite env (afterAppend env w m) c (frame env w m)).2.1 = none) :
    ∃ s w2, w.conns[c]? = some s ∧ s.isOpen = true ∧
      Writeln env l w m = .ok (none, l, w2) ∧
      SetTimeouts env l ((afterAppend env w m).log (.write c (frame env w m))) = .ok w2 ∧
      w2.conns = w.conns.set c
        { s with readDeadline := some (nowAfterWrite env w m c + l.Timeout * 1000000),
                 writeDeadline := some (nowAfterWrite env w m c + l.Timeout * 1000000) } ∧
      w2.trace = w.trace ++ [.write c (frame env w m), .now,
        .setDeadline c (nowAfterWrite env w m c + l.Timeout * 1000000),
        .setWriteDeadline c (nowAfterWrite env w m c + l.Timeout * 1000000),
        .setReadDeadline c (nowAfterWrite env w m c + l.Timeout * 1000000)] := by
  have hopen : w.isOpen c = true := connWrite_ok_open env (afterAppend env w m) c _ hok
  obtain ⟨s, hs, ho⟩ := isOpen_get w c hopen
  have hst := SetTimeouts_open env l ((afterAppend env w m).log (.write c (frame env w m))) c s
    hheld (by simpa using hs) ho
  have hd : deadlineAt l (env.clock ((afterAppend env w m).log (.write c (frame env w m))))
      = nowAfterWrite env w m c + l.Timeout * 1000000 := by
    simp [deadlineAt, timeAdd, nowAfterWrite, duration_fits l.Timeout hlo hhi]
  rw [hd] at hst
  refine ⟨s, _, hs, ho, ?_, hst, ?_, ?_⟩
  · rw [Writeln_held_success env l w m c hheld hok, hst]
  · simp
  · simp

/-- C6, amended, at a concrete input: timeout 5000 ms on open socket 0. -/
theorem Writeln_success_rearms_deadline_witness :
    minInt64 ≤ heldManager.Timeout * 1000000 ∧ heldManager.Timeout * 1000000 ≤ maxInt64 ∧
    heldManager.Connection = some 0 ∧
    ∃ s w2, worldOneConn.conns[0]? = some s ∧ s.isOpen = true ∧
      Writeln envAllOk heldManager worldOneConn sliceTight = .ok (none, heldManager, w2) ∧
      SetTimeouts envAllOk heldManager ((afterAppend envAllOk worldOneConn sliceTight).log
        (.write 0 (frame envAllOk worldOneConn sliceTight))) = .ok w2 ∧
      w2.conns = worldOneConn.conns.set 0
        { s with
          readDeadline := some (nowAfterWrite envAllOk worldOneConn sliceTight 0
            + heldManager.Timeout * 1000000),
          writeDeadline := some (nowAfterWrite envAllOk worldOneConn sliceTight 0
            + heldManager.Timeout * 1000000) } ∧
      w2.trace = worldOneConn.trace ++ [.write 0 (frame envAllOk worldOneConn sliceTight), .now,
        .setDeadline 0 (nowAfterWrite envAllOk worldOneConn sliceTight 0
          + heldManager.Timeout * 1000000),
        .setWriteDeadline 0 (nowAfterWrite envAllOk worldOneConn sliceTight 0
          + heldManager.Timeout * 1000000),
        .setReadDeadline 0 (nowAfterWrite envAllOk worldOneConn sliceTight 0
          + heldManager.Timeout * 1000000)] :=
  ⟨by decide, by decide, rfl, Writeln_success_rearms_deadline envAllOk heldManager worldOneConn
    sliceTight 0 (by decide) (by decide) rfl rfl⟩

/-- C7: if the resolver fails, `Connect` returns a nil handle with the resolver's
error, logs the resolve call and no dial, and leaves manager and sockets as they
were; if the dial fails, it returns a nil handle with the dial error and leaves
manager and sockets as they were; and whenever `Connect` returns an error at all,
the manager and its handle field are exactly as before. -/
theorem Connect_failure_keeps_handle (env : Env) (l : Logstash) (w : World) :
    (∀ e, env.resolve w "tcp" (sprintfHostPort l.Hostname l.Port) = .error e →
      ∃ w2, Connect env l w = .ok ((none, some e), l, w2) ∧
        w2.trace = w.trace ++ [.resolve "tcp" (sprintfHostPort l.Hostname l.Port)] ∧
        w2.conns = w.conns) ∧
    (∀ addr e, env.resolve w "tcp" (sprintfHostPort l.Hostname l.Port) = .ok addr →
      env.dial (w.log (.resolve "tcp" (sprintfHostPort l.Hostname l.Port))) "tcp" addr
        = .failed e →
      ∃ w2, Connect env l w = .ok ((none, some e), l, w2) ∧
        w2.trace = w.trace ++ [.resolve "tcp" (sprintfHostPort l.Hostname l.Port),
          .dial "tcp" addr] ∧
        w2.conns = w.conns) ∧
    (∀ conn e l2 w2, Connect env l w = .ok ((conn, some e), l2, w2) →
      l2 = l ∧ l2.Connection = l.Connection ∧ w2.conns = w.conns) := by
  refine ⟨?_, ?_, ?_⟩
  · intro e hr
    exact ⟨_, Connect_resolve_error env l w e hr, by simp, rfl⟩
  · intro addr e hr hd
    exact ⟨_, Connect_dial_error env l w addr e hr hd, by simp, rfl⟩
  · intro conn e l2 w2 h
    rcases Connect_cases env l w with ⟨e2, w3, hc, hw⟩ | ⟨w3, hc, hw⟩ | ⟨addr, hc⟩
    · rw [hc] at h
      injection h with h
      injection h with _ h
      injection h with h1 h2
      subst h1 h2
      exact ⟨rfl, rfl, hw⟩
    · rw [hc] at h
      injection h with h
      injection h with h _
      injection h with _ h
      cases h
    · rw [hc] at h
      injection h with h
      injection h with h _
      injection h with _ h
      cases h

/-- C7 at concrete inputs: a host that does not resolve, and a refused dial, on a
manager just built by `New`. -/
theorem Connect_failure_keeps_handle_witness :
    (∃ w2, Connect envNoHost (New "nowhere" 9000 5000) worldNoConn
        = .ok ((none, some { msg := "no such host", netTimeout := some false }),
            New "nowhere" 9000 5000, w2) ∧
      w2.trace = worldNoConn.trace ++ [.resolve "tcp" (sprintfHostPort "nowhere" 9000)] ∧
      w2.conns = worldNoConn.conns) ∧
    (∃ w2, Connect envRefused (New "127.0.0.1" 9000 5000) worldNoConn
        = .ok ((none, some { msg := "connection refused", netTimeout := some false }),
            New "127.0.0.1" 9000 5000, w2) ∧
      w2.trace = worldNoConn.trace ++ [.resolve "tcp" (sprintfHostPort "127.0.0.1" 9000),
        .dial "tcp" { IP := [127, 0, 0, 1], Port := 9000, Zone := "" }] ∧
      w2.conns = worldNoConn.conns) :=
  ⟨(Connect_failure_keeps_handle envNoHost (New "nowhere" 9000 5000) worldNoConn).1 _ rfl,
   (Connect_failure_keeps_handle envRefused (New "127.0.0.1" 9000 5000) worldNoConn).2.1
      _ _ rfl rfl⟩

/-- C8, as stated, fails: with timeout 9223372036855 ms a successful `Connect`
reads the clock at 1006 and sets the deadlines to -9223372036854550610, not to
1006 + 9223372036855 * 1000000. -/
theorem Connect_deadline_overflow :
    nowAtConnect envAllOk (New "127.0.0.1" 9000 9223372036855) worldNoConn
      { IP := [127, 0, 0, 1], Port := 9000, Zone := "" } = 1006 ∧
    Connect envAllOk (New "127.0.0.1" 9000 9223372036855) worldNoConn =
      .ok ((some 0, none),
        { Hostname := "127.0.0.1", Port := 9000, Connection := some 0,
          Timeout := 9223372036855 },
        { conns := [
            { isOpen := true, linger := 0, noDelay := true, keepAlive := true,
              keepAlivePeriod := 5000000000,
              readDeadline := some (-9223372036854550610),
              writeDeadline := some (-9223372036854550610) }],
          trace := [.resolve "tcp" "127.0.0.1:9000",
            .dial "tcp" { IP := [127, 0, 0, 1], Port := 9000, Zone := "" },
            .setLinger 0 0, .setNoDelay 0 true, .setKeepAlive 0 true,
            .setKeepAlivePeriod 0 5000000000, .now,
            .setDeadline 0 (-9223372036854550610),
            .setWriteDeadline 0 (-9223372036854550610),
            .setReadDeadline 0 (-9223372036854550610)],
          heap := [[104, 105, 0]] }) ∧
    (-9223372036854550610 : Int) ≠ 1006 + 9223372036855 * 1000000 :=
  ⟨rfl, rfl, by decide⟩

/-- C8, amended: for every manager state whose timeout T has T * 1000000 within
`int64`, when resolution and dial both succeed `Connect` returns the newly dialed
handle with a nil error, the manager afterwards holds that handle whatever it
held before, and the calls logged are, in order, resolve, dial, `SetLinger(0)`,
`SetNoDelay(true)`, `SetKeepAlive(true)`, `SetKeepAlivePeriod` of 5 s, the clock
reading, then `SetDeadline`, `SetWriteDeadline`, `SetReadDeadline` with now +
T * 1000000 ns; the new socket ends open with exactly these settings. -/
theorem Connect_success_configures_handle (env : Env) (l : Logstash) (w : World)
    (addr : TCPAddr) (hlo : minInt64 ≤ l.Timeout * 1000000)
    (hhi : l.Timeout * 1000000 ≤ maxInt64)
    (hr : env.resolve w "tcp" (sprintfHostPort l.Hostname l.Port) = .ok addr)
    (hd : env.dial (w.log (.resolve "tcp" (sprintfHostPort l.Hostname l.Port))) "tcp" addr
      = .connected) :
    ∃ l2 w2, Connect env l w = .ok ((some w.conns.length, none), l2, w2) ∧
      l2 = { l with Connection := some w.conns.length } ∧
      w.conns[w.conns.length]? = none ∧
      (optionsSet (dialed w l addr) w.conns.length).trace =
        w.trace ++ [.resolve "tcp" (sprintfHostPort l.Hostname l.Port), .dial "tcp" addr,
          .setLinger w.conns.length 0, .setNoDelay w.conns.length true,
          .setKeepAlive w.conns.length true,
          .setKeepAlivePeriod w.conns.length (5 * 1000000000)] ∧
      w2.trace = (optionsSet (dialed w l addr) w.conns.length).trace ++ [.now,
          .setDeadline w.conns.length (nowAtConnect env l w addr + l.Timeout * 1000000),
          .setWriteDeadline w.conns.length (nowAtConnect env l w addr + l.Timeout * 1000000),
          .setReadDeadline w.conns.length (nowAtConnect env l w addr + l.Timeout * 1000000)] ∧
      w2.conns = w.conns ++ [
        { isOpen := true, linger := 0, noDelay := true, keepAlive := true,
          keepAlivePeriod := 5 * 1000000000,
          readDeadline := some (nowAtConnect env l w addr + l.Timeout * 1000000),
          writeDeadline := some (nowAtConnect env l w addr + l.Timeout * 1000000) }] := by
  have hdl : deadlineAt l (nowAtConnect env l w addr)
      = nowAtConnect env l w addr + l.Timeout * 1000000 := by
    simp [deadlineAt, timeAdd, duration_fits l.Timeout hlo hhi]
  refine ⟨_, _, Connect_connected_world env l w addr hr hd, rfl, by simp, ?_, ?_, ?_⟩
  · rw [optionsSet_dialed]
    simp
  · rw [optionsSet_dialed]
    simp [connectedWorld, hdl]
  · simp [connectedWorld, hdl]

/-- C8, amended, at a concrete input: a manager built by `New` with timeout 5000 ms;
the clock is read at 1006 and both deadlines become 5000001006. -/
theorem Connect_success_configures_handle_witness :
    minInt64 ≤ (New "127.0.0.1" 9000 5000).Timeout * 1000000 ∧
    (New "127.0.0.1" 9000 5000).Timeout * 1000000 ≤ maxInt64 ∧
    nowAtConnect envAllOk (New "127.0.0.1" 9000 5000) worldNoConn
      { IP := [127, 0, 0, 1], Port := 9000, Zone := "" } + 5000 * 1000000 = 5000001006 ∧
    ∃ l2 w2, Connect envAllOk (New "127.0.0.1" 9000 5000) worldNoConn
        = .ok ((some worldNoConn.conns.length, none), l2, w2) ∧
      l2 = { New "127.0.0.1" 9000 5000 with Connection := some worldNoConn.conns.length } ∧
      worldNoConn.conns[worldNoConn.conns.length]? = none ∧
      (optionsSet (dialed worldNoConn (New "127.0.0.1" 9000 5000)
          { IP := [127, 0, 0, 1], Port := 9000, Zone := "" }) worldNoConn.conns.length).trace =
        worldNoConn.trace ++ [.resolve "tcp" (sprintfHostPort (New "127.0.0.1" 9000 5000).Hostname
            (New "127.0.0.1" 9000 5000).Port),
          .dial "tcp" { IP := [127, 0, 0, 1], Port := 9000, Zone := "" },
          .setLinger worldNoConn.conns.length 0, .setNoDelay worldNoConn.conns.length true,
          .setKeepAlive worldNoConn.conns.length true,
          .setKeepAlivePeriod worldNoConn.conns.length (5 * 1000000000)] ∧
      w2.trace = (optionsSet (dialed worldNoConn (New "127.0.0.1" 9000 5000)
          { IP := [127, 0, 0, 1], Port := 9000, Zone := "" }) worldNoConn.conns.length).trace ++
        [.now,
          .setDeadline worldNoConn.conns.length
            (nowAtConnect envAllOk (New "127.0.0.1" 9000 5000) worldNoConn
              { IP := [127, 0, 0, 1], Port := 9000, Zone := "" }
              + (New "127.0.0.1" 9000 5000).Timeout * 1000000),
          .setWriteDeadline worldNoConn.conns.length
            (nowAtConnect envAllOk (New "127.0.0.1" 9000 5000) worldNoConn
              { IP := [127, 0, 0, 1], Port := 9000, Zone := "" }
              + (New "127.0.0.1" 9000 5000).Timeout * 1000000),
          .setReadDeadline worldNoConn.conns.length
            (nowAtConnect envAllOk (New "127.0.0.1" 9000 5000) worldNoConn
              { IP := [127, 0, 0, 1], Port := 9000, Zone := "" }
              + (New "127.0.0.1" 9000 5000).Timeout * 1000000)] ∧
      w2.conns = worldNoConn.conns ++ [
        { isOpen := true, linger := 0, noDelay := true, keepAlive := true,
          keepAlivePeriod := 5 * 1000000000,
          readDeadline := some (nowAtConnect envAllOk (New "127.0.0.1" 9000 5000) worldNoConn
              { IP := [127, 0, 0, 1], Port := 9000, Zone := "" }
              + (New "127.0.0.1" 9000 5000).Timeout * 1000000),
          writeDeadline := some (nowAtConnect envAllOk (New "127.0.0.1" 9000 5000) worldNoConn
              { IP := [127, 0, 0, 1], Port := 9000, Zone := "" }
              + (New "127.0.0.1" 9000 5000).Timeout * 1000000) }] :=
  ⟨by decide, by decide, rfl,
    Connect_success_configures_handle envAllOk (New "127.0.0.1" 9000 5000) worldNoConn
      { IP := [127, 0, 0, 1], Port := 9000, Zone := "" } (by decide) (by decide) rfl rfl⟩

/-- Every method call `Writeln` makes on a handle is made on the handle the
manager held when called. -/
theorem Writeln_calls (env : Env) (l : Logstash) (w : World) (m : Slice) :
    ∃ err l2 w2 calls, Writeln env l w m = .ok (err, l2, w2) ∧
      w2.trace = w.trace ++ calls ∧
      ∀ op ∈ calls, ∀ c, op.onHandle = some c → l.Connection = some c := by
  rcases Writeln_cases env l w m with ⟨_, hr⟩ | ⟨c, e, hc, _, hr⟩ | ⟨c, w3, hc, _, hs, hr⟩
  · refine ⟨_, _, _, [], hr, by simp, ?_⟩
    intro op hop
    cases hop
  · refine ⟨_, _, _, [.write c (frame env w m), .close c], hr, by simp, ?_⟩
    intro op hop d hd
    simp only [List.mem_cons, List.mem_singleton, List.not_mem_nil, or_false] at hop
    rcases hop with h | h <;> subst h <;> simp only [Op.onHandle, Option.some.injEq] at hd <;>
      rw [hc, hd]
  · rw [SetTimeouts_held env l _ c hc] at hs
    injection hs with hs
    subst hs
    refine ⟨_, _, _, [.write c (frame env w m), .now,
      .setDeadline c (deadlineAt l (nowAfterWrite env w m c)),
      .setWriteDeadline c (deadlineAt l (nowAfterWrite env w m c)),
      .setReadDeadline c (deadlineAt l (nowAfterWrite env w m c))], hr, ?_, ?_⟩
    · simp [deadlineAt, nowAfterWrite, timeAdd]
    · intro op hop d hd
      simp only [List.mem_cons, List.mem_singleton, List.not_mem_nil, or_false] at hop
      rcases hop with h | h | h | h | h <;> subst h <;>
        simp only [Op.onHandle, Option.some.injEq, reduceCtorEq] at hd <;> rw [hc, hd]

/-- Every method call `Connect` makes on a handle is made on the handle it has
just stored in the manager. -/
theorem Connect_calls (env : Env) (l : Logstash) (w : World) :
    ∃ res l2 w2 calls, Connect env l w = .ok (res, l2, w2) ∧
      w2.trace = w.trace ++ calls ∧
      ∀ op ∈ calls, ∀ c, op.onHandle = some c →
        l2.Connection = some c ∧ res.1 = some c ∧ w.conns[c]? = none := by
  cases hr : env.resolve w "tcp" (sprintfHostPort l.Hostname l.Port) with
  | error e =>
    refine ⟨_, _, _, [.resolve "tcp" (sprintfHostPort l.Hostname l.Port)],
      Connect_resolve_error env l w e hr, by simp, ?_⟩
    intro op hop d hd
    simp only [List.mem_singleton] at hop
    subst hop
    cases hd
  | ok addr =>
    cases hd : env.dial (w.log (.resolve "tcp" (sprintfHostPort l.Hostname l.Port))) "tcp" addr with
    | connected =>
      refine ⟨_, _, _, [.resolve "tcp" (sprintfHostPort l.Hostname l.Port),
        .dial "tcp" addr, .setLinger w.conns.length 0, .setNoDelay w.conns.length true,
        .setKeepAlive w.conns.length true, .setKeepAlivePeriod w.conns.length 5000000000,
        .now, .setDeadline w.conns.length (deadlineAt l (nowAtConnect env l w addr)),
        .setWriteDeadline w.conns.length (deadlineAt l (nowAtConnect env l w addr)),
        .setReadDeadline w.conns.length (deadlineAt l (nowAtConnect env l w addr))],
        Connect_connected_world env l w addr hr hd, rfl, ?_⟩
      intro op hop d hd2
      simp only [List.mem_cons, List.mem_singleton, List.not_mem_nil, or_false] at hop
      rcases hop with h | h | h | h | h | h | h | h | h | h <;> subst h <;>
        simp only [Op.onHandle, Option.some.injEq, reduceCtorEq] at hd2 <;>
        subst hd2 <;> simp
    | failed e =>
      refine ⟨_, _, _, [.resolve "tcp" (sprintfHostPort l.Hostname l.Port), .dial "tcp" addr],
        Connect_dial_error env l w addr e hr hd, by simp, ?_⟩
      intro op hop d hd2
      simp only [List.mem_cons, List.mem_singleton, List.not_mem_nil, or_false] at hop
      rcases hop with h | h <;> subst h <;> cases hd2
    | nothing =>
      refine ⟨_, _, _, [.resolve "tcp" (sprintfHostPort l.Hostname l.Port), .dial "tcp" addr],
        Connect_dial_nothing env l w addr hr hd, by simp, ?_⟩
      intro op hop d hd2
      simp only [List.mem_cons, List.mem_singleton, List.not_mem_nil, or_false] at hop
      rcases hop with h | h <;> subst h <;> cases hd2

/-- C10: from every manager state and for every transport, `Connect` returns and
`Writeln` returns, so neither panics on an absent handle: every method call
`Connect` makes on a handle is on the freshly dialed handle it has just stored,
and every method call `Writeln` makes on a handle (`Write`, `Close`, the deadline
calls of `SetTimeouts`) is on the handle held when it was called; `SetTimeouts`
called directly on a manager with no handle panics with a nil dereference, and
with a handle it returns. -/
theorem Connect_Writeln_never_fault (env : Env) (l : Logstash) (w : World) (m : Slice)
    (c : Nat) :
    (∃ res l2 w2 calls, Connect env l w = .ok (res, l2, w2) ∧
      w2.trace = w.trace ++ calls ∧
      ∀ op ∈ calls, ∀ d, op.onHandle = some d →
        l2.Connection = some d ∧ res.1 = some d ∧ w.conns[d]? = none) ∧
    (∃ err l2 w2 calls, Writeln env l w m = .ok (err, l2, w2) ∧
      w2.trace = w.trace ++ calls ∧
      ∀ op ∈ calls, ∀ d, op.onHandle = some d → l.Connection = some d) ∧
    SetTimeouts env { l with Connection := none } w = .error .nilDereference ∧
    (∃ w2, SetTimeouts env { l with Connection := some c } w = .ok w2) :=
  ⟨Connect_calls env l w, Writeln_calls env l w m, SetTimeouts_absent env _ w rfl,
    ⟨_, SetTimeouts_held env _ w c rfl⟩⟩

theorem update_isOpen (w : World) (c d : Nat) (f : ConnState → ConnState)
    (hf : ∀ s, (f s).isOpen = s.isOpen) : (w.update c f).isOpen d = w.isOpen d := by
  by_cases hdc : d = c
  · subst hdc
    cases hs : w.conns[d]? with
    | none =>
      have : w.isOpen d = false := by simp [World.isOpen, hs]
      rw [update_closed w d f this]
    | some s =>
      cases ho : s.isOpen with
      | false =>
        have : w.isOpen d = false := by simp [World.isOpen, hs, ho]
        rw [update_closed w d f this]
      | true =>
        have h := update_get_self w d f s hs ho
        simp [World.isOpen, h, hs, hf, ho]
  · simp [World.isOpen, update_get_other w c d f hdc]

theorem update_isOpen_other (w : World) (c d : Nat) (f : ConnState → ConnState)
    (hdc : d ≠ c) : (w.update c f).isOpen d = w.isOpen d := by
  simp [World.isOpen, update_get_other w c d f hdc]

theorem connClose_isOpen_other (w : World) (c d : Nat) (hdc : d ≠ c) :
    (connClose w c).isOpen d = w.isOpen d := by
  unfold connClose
  rw [update_isOpen_other _ _ _ _ hdc]
  rfl

theorem connClose_length (w : World) (c : Nat) :
    (connClose w c).conns.length = w.conns.length := by
  simp [connClose]

theorem SetDeadline_isOpen (w : World) (c d : Nat) (t : Int) :
    (SetDeadline w c t).isOpen d = w.isOpen d := by
  unfold SetDeadline
  exact update_isOpen _ _ _ _ (fun _ => rfl)

theorem SetWriteDeadline_isOpen (w : World) (c d : Nat) (t : Int) :
    (SetWriteDeadline w c t).isOpen d = w.isOpen d := by
  unfold SetWriteDeadline
  exact update_isOpen _ _ _ _ (fun _ => rfl)

theorem SetReadDeadline_isOpen (w : World) (c d : Nat) (t : Int) :
    (SetReadDeadline w c t).isOpen d = w.isOpen d := by
  unfold SetReadDeadline
  exact update_isOpen _ _ _ _ (fun _ => rfl)

theorem getElem?_snoc (cs : List ConnState) (x : ConnState) (d : Nat) :
    (cs ++ [x])[d]? = if d < cs.length then cs[d]? else if d = cs.length then some x else none := by
  by_cases h1 : d < cs.length
  · simp [List.getElem?_append_left, h1]
  · by_cases h2 : d = cs.length
    · subst h2
      simp
    · simp only [h1, h2, if_false]
      apply List.getElem?_eq_none
      simp
      omega

/-- The deadline calls of `SetTimeouts` open and close nothing. -/
theorem SetTimeouts_isOpen (env : Env) (l : Logstash) (w w2 : World)
    (h : SetTimeouts env l w = .ok w2) (d : Nat) :
    w2.isOpen d = w.isOpen d ∧ w2.conns.length = w.conns.length := by
  cases hc : l.Connection with
  | none =>
    rw [SetTimeouts_absent env l w hc] at h
    cases h
  | some c =>
    rw [SetTimeouts_held env l w c hc] at h
    injection h with h
    subst h
    constructor
    · rw [SetReadDeadline_isOpen, SetWriteDeadline_isOpen, SetDeadline_isOpen, log_isOpen]
    · simp [SetReadDeadline, SetWriteDeadline, SetDeadline]

theorem isOpen_lt (w : World) (c : Nat) (h : w.isOpen c = true) : c < w.conns.length := by
  obtain ⟨s, hs, _⟩ := isOpen_get w c h
  exact (List.getElem?_eq_some_iff.mp hs).1

/-- After a successful `Connect` the new socket is open and the old ones are as
they were. -/
theorem connectedWorld_isOpen (env : Env) (l : Logstash) (w : World) (addr : TCPAddr)
    (d : Nat) :
    (connectedWorld env l w addr).isOpen d
      = if d = w.conns.length then true else w.isOpen d := by
  unfold World.isOpen connectedWorld
  simp only [getElem?_snoc]
  by_cases h1 : d < w.conns.length
  · have hne : d ≠ w.conns.length := by omega
    simp [h1, hne]
  · by_cases h2 : d = w.conns.length
    · subst h2
      simp
    · have h4 : w.conns[d]? = none := List.getElem?_eq_none (by omega)
      simp [h1, h2, h4]

theorem isOpen_congr (w w2 : World) (h : w2.conns = w.conns) (d : Nat) :
    w2.isOpen d = w.isOpen d := by
  unfold World.isOpen
  rw [h]

theorem replaces_false_absent (env : Env) (l : Logstash) (w : World) (addr : TCPAddr)
    (hc : Connect env l w = .ok ((some w.conns.length, none),
      { l with Connection := some w.conns.length }, connectedWorld env l w addr))
    (hnr : replaces env l w = false) : l.Connection = none := by
  cases hl : l.Connection with
  | none => rfl
  | some c =>
    unfold replaces at hnr
    rw [hc, hl] at hnr
    simp at hnr

/-- One call keeps the single-owner invariant, unless it is a `Connect` that
hands out a new handle while one is held; and only a `Connect` returning no
error takes the manager from no handle to a handle. -/
theorem step_preserves (env : Env) (base : Nat) (call : Call) (l : Logstash) (w : World)
    (hb : base ≤ w.conns.length) (hinv : SingleOwner base l w)
    (hnr : call = .connect → replaces env l w = false) :
    ∃ err l2 w2, step env call l w = .ok (err, l2, w2) ∧ base ≤ w2.conns.length ∧
      SingleOwner base l2 w2 ∧
      (l.Connection = none → l2.Connection ≠ none → call = .connect ∧ err = none) := by
  cases call with
  | connect =>
    rcases Connect_cases env l w with ⟨e, w3, hc, hw⟩ | ⟨w3, hc, hw⟩ | ⟨addr, hc⟩
    · refine ⟨some e, l, w3, by simp [step, hc], by rw [hw]; exact hb, ?_, ?_⟩
      · refine ⟨fun c h1 h2 => hinv.1 c h1 ?_, fun c h1 => ⟨(hinv.2 c h1).1, ?_⟩⟩
        · rw [← isOpen_congr w w3 hw c]
          exact h2
        · rw [isOpen_congr w w3 hw c]
          exact (hinv.2 c h1).2
      · intro h1 h2
        exact absurd h1 h2
    · refine ⟨none, l, w3, by simp [step, hc], by rw [hw]; exact hb, ?_, ?_⟩
      · refine ⟨fun c h1 h2 => hinv.1 c h1 ?_, fun c h1 => ⟨(hinv.2 c h1).1, ?_⟩⟩
        · rw [← isOpen_congr w w3 hw c]
          exact h2
        · rw [isOpen_congr w w3 hw c]
          exact (hinv.2 c h1).2
      · intro h1 h2
        exact absurd h1 h2
    · have habs : l.Connection = none := replaces_false_absent env l w addr hc (hnr rfl)
      refine ⟨none, { l with Connection := some w.conns.length }, connectedWorld env l w addr,
        by simp [step, hc], by simp [connectedWorld]; omega, ?_, ?_⟩
      · constructor
        · intro c h1 h2
          rw [connectedWorld_isOpen] at h2
          by_cases hcn : c = w.conns.length
          · rw [hcn]
          · simp only [hcn, if_false] at h2
            have := hinv.1 c h1 h2
            rw [habs] at this
            cases this
        · intro c h1
          simp only [Option.some.injEq] at h1
          subst h1
          exact ⟨hb, by rw [connectedWorld_isOpen]; simp⟩
      · intro _ _
        exact ⟨rfl, rfl⟩
  | writeln m =>
    rcases Writeln_cases env l w m with ⟨hc, hr⟩ | ⟨c, e, hc, _, hr⟩ | ⟨c, w3, hc, _, hs, hr⟩
    · refine ⟨_, _, _, hr, hb, ?_, ?_⟩
      · exact hinv
      · intro h1 h2
        exact absurd h1 h2
    · refine ⟨_, _, _, hr, by rw [connClose_length]; exact hb, ?_, ?_⟩
      · constructor
        · intro d h1 h2
          by_cases hdc : d = c
          · subst hdc
            rw [connClose_isOpen] at h2
            cases h2
          · rw [connClose_isOpen_other _ _ _ hdc] at h2
            have := hinv.1 d h1 h2
            rw [hc] at this
            simp only [Option.some.injEq] at this
            exact absurd this.symm hdc
        · intro d h1
          cases h1
      · intro h1 _
        rw [hc] at h1
        cases h1
    · have ho := SetTimeouts_isOpen env l _ w3 hs
      refine ⟨_, _, _, hr, by rw [(ho 0).2]; exact hb, ?_, ?_⟩
      · constructor
        · intro d h1 h2
          rw [(ho d).1] at h2
          exact hinv.1 d h1 h2
        · intro d h1
          refine ⟨(hinv.2 d h1).1, ?_⟩
          rw [(ho d).1]
          exact (hinv.2 d h1).2
      · intro h1 h2
        exact absurd h1 h2

/-- A run keeps the single-owner invariant after each of its calls. -/
theorem run_preserves (env : Env) (base : Nat) (pre post : List Call) :
    ∀ (l : Logstash) (w : World), base ≤ w.conns.length → SingleOwner base l w →
      noReplace env (pre ++ post) l w = true →
      ∃ l2 w2, run env pre l w = .ok (l2, w2) ∧ base ≤ w2.conns.length ∧
        SingleOwner base l2 w2 ∧ noReplace env post l2 w2 = true := by
  induction pre with
  | nil =>
    intro l w hb hinv hnr
    exact ⟨l, w, rfl, hb, hinv, hnr⟩
  | cons call rest ih =>
    intro l w hb hinv hnr
    simp only [List.cons_append, noReplace, Bool.and_eq_true] at hnr
    have hcall : call = .connect → replaces env l w = false := by
      intro hcc
      subst hcc
      simpa using hnr.1
    obtain ⟨err, l2, w2, hstep, hb2, hinv2, _⟩ := step_preserves env base call l w hb hinv hcall
    have hnr2 := hnr.2
    rw [hstep] at hnr2
    simp only at hnr2
    obtain ⟨l3, w3, hrun, hb3, hinv3, hnr3⟩ := ih l2 w2 hb2 hinv2 hnr2
    refine ⟨l3, w3, ?_, hb3, hinv3, hnr3⟩
    simp only [run, hstep]
    exact hrun

/-- A manager just built by `New` satisfies the invariant: it has opened nothing. -/
theorem New_single_owner (hostname : String) (port timeout : Int) (w : World) :
    SingleOwner w.conns.length (New hostname port timeout) w := by
  constructor
  · intro c h1 h2
    have := isOpen_lt w c h2
    omega
  · intro c h1
    cases h1

/-- C9, as stated, fails: two successful `Connect` calls in a row on a manager
built by `New` leave socket 1 held and socket 0, which the manager opened and
no longer holds, still open. -/
theorem reconnect_leaks_handle :
    observe (run envAllOk [.connect, .connect] (New "127.0.0.1" 9000 5000) worldNoConn)
      = some (some 1, true, true) ∧
    ¬ ∃ l w, run envAllOk [.connect, .connect] (New "127.0.0.1" 9000 5000) worldNoConn
        = .ok (l, w) ∧ SingleOwner worldNoConn.conns.length l w := by
  refine ⟨rfl, ?_⟩
  rintro ⟨l, w, hrun, hinv⟩
  have hobs : observe (run envAllOk [.connect, .connect] (New "127.0.0.1" 9000 5000)
      worldNoConn) = some (some 1, true, true) := rfl
  rw [hrun] at hobs
  simp only [observe, Option.some.injEq, Prod.mk.injEq] at hobs
  have h0 := hinv.1 0 (Nat.zero_le _) hobs.2.1
  rw [hobs.1] at h0
  cases h0

/-- C9, amended: for every sequence of `Connect` and `Writeln` calls on a manager
built by `New` in which no `Connect` hands out a new handle while one is held,
and every transport: after each call the run has returned and either the manager
holds no handle and none of the sockets it opened is open, or it holds one and
that is the only socket it opened that is open; the next call returns too, and
it takes the manager from no handle to a handle only if it is a `Connect` that
returns no error. -/
theorem single_owner_without_replacement (env : Env) (hostname : String)
    (port timeout : Int) (w0 : World) (pre post : List Call)
    (h : noReplace env (pre ++ post) (New hostname port timeout) w0 = true) :
    ∃ l w, run env pre (New hostname port timeout) w0 = .ok (l, w) ∧
      SingleOwner w0.conns.length l w ∧
      ∀ call rest, post = call :: rest →
        ∃ err l2 w2, step env call l w = .ok (err, l2, w2) ∧
          (l.Connection = none → l2.Connection ≠ none → call = .connect ∧ err = none) := by
  obtain ⟨l, w, hrun, hb, hinv, hnr⟩ := run_preserves env w0.conns.length pre post
    (New hostname port timeout) w0 (Nat.le_refl _) (New_single_owner hostname port timeout w0) h
  refine ⟨l, w, hrun, hinv, ?_⟩
  intro call rest hpost
  subst hpost
  simp only [noReplace, Bool.and_eq_true] at hnr
  have hcall : call = .connect → replaces env l w = false := by
    intro hcc
    subst hcc
    simpa using hnr.1
  obtain ⟨err, l2, w2, hstep, _, _, htrans⟩ :=
    step_preserves env w0.conns.length call l w hb hinv hcall
  exact ⟨err, l2, w2, hstep, htrans⟩

/-- C9, amended, at a concrete input: connect, a write that times out, connect
again, then one more write. -/
theorem single_owner_without_replacement_witness :
    noReplace envWriteTimeout ([.connect, .writeln sliceTight, .connect] ++ [.writeln sliceSpare])
      (New "127.0.0.1" 9000 5000) worldNoConn = true ∧
    ∃ l w, run envWriteTimeout [.connect, .writeln sliceTight, .connect]
        (New "127.0.0.1" 9000 5000) worldNoConn = .ok (l, w) ∧
      SingleOwner worldNoConn.conns.length l w ∧
      ∀ call rest, [Call.writeln sliceSpare] = call :: rest →
        ∃ err l2 w2, step envWriteTimeout call l w = .ok (err, l2, w2) ∧
          (l.Connection = none → l2.Connection ≠ none → call = .connect ∧ err = none) :=
  ⟨rfl, single_owner_without_replacement envWriteTimeout "127.0.0.1" 9000 5000 worldNoConn
    [.connect, .writeln sliceTight, .connect] [.writeln sliceSpare] rfl⟩

end Markdeploy
